import Mathlib

/-!
# Verification of the hookedMonero settlement/authentication core

Shallow embedding of the `WrappedMonero` Solidity contract (LP collateral
accounting, mint / burn-request state machines, nullifier tracking, Merkle
verification), of the off-ledger Merkle proof construction
(`computeMerkleProofFromLeaves`), of the off-ledger DLEQ prover/verifier
(`generate_dleq.js`), and of the Ed25519 double-and-add scalar multiplication
(`Ed25519.sol` / the JS curve library).

Modelling conventions:
* `uint256` values are `Nat`. Solidity 0.8 checked subtraction and division
  are modelled by `ssub` / `sdiv`, which revert (return `.error`) on
  underflow / division by zero, matching the EVM revert. Checked addition
  and multiplication overflow at `2^256` is not modelled: no claim in this
  development depends on values near `2^256`, and an overflow revert would
  only replace one revert by another.
* A reverting call is an `Except.error` carrying the source `require`
  message; the pre-state is untouched, which models the EVM's
  all-or-nothing transaction semantics.
* `address` and `bytes32` values are `Nat`.
* Solidity mappings are total functions, with the all-zero record as the
  value of unset keys, exactly as EVM storage behaves.
* `keccak256(abi.encodePacked(...))` used only to build mapping keys
  (intent ids, output ids) is modelled symbolically by the tuple of packed
  fields, i.e. as an injective pairing.
* External contracts (wstETH wrap / conversion rates, Pyth price
  normalisation) are inputs: an `Env` of arbitrary total functions for the
  wstETH views, and explicit arguments for the normalised Pyth prices.
-/

namespace HookedMonero

/-- Solidity `require(cond, msg)` in continuation style: run `k` when the
condition holds, revert with `msg` otherwise. -/
def require {α : Type} (cond : Prop) [Decidable cond] (msg : String)
    (k : Except String α) : Except String α :=
  if cond then k else .error msg

/-- Sequencing of a fallible intermediate computation (checked arithmetic,
conversion helpers): propagate the revert, otherwise continue. -/
def bindE {α β : Type} (x : Except String α) (k : α → Except String β) :
    Except String β :=
  match x with
  | .error e => .error e
  | .ok v => k v

/-- Solidity 0.8 checked subtraction: reverts on underflow. -/
def ssub (a b : Nat) : Except String Nat :=
  if b ≤ a then .ok (a - b) else .error "arithmetic underflow"

/-- EVM division: reverts on a zero denominator. -/
def sdiv (a b : Nat) : Except String Nat :=
  if b = 0 then .error "division by zero" else .ok (a / b)

/-- Pointwise update of a mapping, the storage write `m[k] = v`. -/
def setMap {κ α : Type} [DecidableEq κ] (m : κ → α) (k : κ) (v : α) : κ → α :=
  fun a => if a = k then v else m a

/-! ## Data model (part_006, `WrappedMonero` state) -/

/-- Per-LP record, from `struct LPInfo` (part_006 lines 78-85). -/
structure LPInfo where
  collateralAmount : Nat
  backedAmount : Nat
  mintFeeBps : Nat
  burnFeeBps : Nat
  moneroAddress : String
  active : Bool
deriving DecidableEq, Repr

/-- Symbolic `keccak256(abi.encodePacked(msg.sender, lp, expectedAmount,
block.timestamp))` key of `mintIntents` (part_006 line 445): keccak on this
fixed-width packing is modelled as an injective pairing of the four fields. -/
structure IntentId where
  user : Nat
  lp : Nat
  expectedAmount : Nat
  createdAt : Nat
deriving DecidableEq, Repr

/-- Mint-intent record, from `struct MintIntent` (part_006 lines 89-97). -/
structure MintIntent where
  user : Nat
  lp : Nat
  expectedAmount : Nat
  depositAmount : Nat
  createdAt : Nat
  fulfilled : Bool
  cancelled : Bool
deriving DecidableEq, Repr

/-- Symbolic `keccak256(abi.encodePacked(txHash, outputIndex))` nullifier key
of `usedOutputs` (part_006 line 522). -/
structure OutputId where
  txHash : Nat
  outputIndex : Nat
deriving DecidableEq, Repr

/-- Burn-request record, from `struct BurnRequest` (part_006 lines 104-114). -/
structure BurnRequest where
  user : Nat
  lp : Nat
  amount : Nat
  depositAmount : Nat
  xmrAddress : String
  requestTime : Nat
  collateralLocked : Nat
  fulfilled : Bool
  defaulted : Bool
deriving DecidableEq, Repr

/-- Relayed block record, from `struct MoneroBlockData` (part_006 lines
119-125). The Solidity field `exists` is `exists_` here (`exists` is a Lean
keyword). -/
structure MoneroBlockData where
  blockHash : Nat
  txMerkleRoot : Nat
  outputMerkleRoot : Nat
  timestamp : Nat
  exists_ : Bool
deriving DecidableEq, Repr

/-- Claimed Monero output, from `struct MoneroTxOutput` (part_006 lines
129-135). -/
structure MoneroTxOutput where
  txHash : Nat
  outputIndex : Nat
  ecdhAmount : Nat
  outputPubKey : Nat
  commitment : Nat
deriving DecidableEq, Repr

/-- Calldata DLEQ attestation, from `struct DLEQProof` (part_006 lines
142-147). -/
structure DLEQProofSol where
  c : Nat
  s : Nat
  K1 : Nat
  K2 : Nat
deriving DecidableEq, Repr

/-- Calldata curve points, from `struct Ed25519Proof` (part_006 lines
149-162). -/
structure Ed25519ProofSol where
  R_x : Nat
  R_y : Nat
  S_x : Nat
  S_y : Nat
  P_x : Nat
  P_y : Nat
  B_x : Nat
  B_y : Nat
  G_x : Nat
  G_y : Nat
  A_x : Nat
  A_y : Nat
deriving DecidableEq, Repr

/-- Contract storage: the state variables of `WrappedMonero`
(part_006 lines 69-140) plus the inherited ERC20 balances. -/
structure State where
  oracle : Nat
  lpInfo : Nat → LPInfo
  mintIntents : IntentId → MintIntent
  usedOutputs : OutputId → Bool
  burnRequests : Nat → BurnRequest
  nextBurnId : Nat
  moneroBlocks : Nat → MoneroBlockData
  latestMoneroBlock : Nat
  xmrUsdPrice : Nat
  ethUsdPrice : Nat
  lastPriceUpdate : Nat
  balances : Nat → Nat
  totalSupply : Nat
  totalLPCollateral : Nat

/-- Transaction context: `msg.sender`, `msg.value`, `block.timestamp`. -/
structure Ctx where
  msgSender : Nat
  msgValue : Nat
  timestamp : Nat

/-- External collaborators: the wstETH contract's deterministic views. In
`lpDeposit` / `liquidateLP` the amount of wstETH received for the ETH sent
is the balance difference around the wrap call; it is modelled as the
function `wrapEthToWst` of the ETH value. -/
structure Env where
  wrapEthToWst : Nat → Nat
  getStETHByWstETH : Nat → Nat
  getWstETHByStETH : Nat → Nat

/-! ## Constants (part_006 lines 51-59) -/

def SAFE_RATIO : Nat := 150

def LIQUIDATION_THRESHOLD : Nat := 120

def PICONERO_PER_XMR : Nat := 10 ^ 12

def BURN_TIMEOUT : Nat := 7200

def MAX_FEE_BPS : Nat := 500

def MINT_INTENT_TIMEOUT : Nat := 7200

def MIN_INTENT_DEPOSIT : Nat := 10 ^ 15

def MIN_MINT_BPS : Nat := 100

/-! ## Price conversion helpers (part_006 lines 780-810) -/

/-- Source `_xmrToETH` (part_006 lines 780-786). -/
def xmrToETH (s : State) (piconeroAmount : Nat) : Except String Nat :=
  sdiv (piconeroAmount * s.xmrUsdPrice / PICONERO_PER_XMR * 10 ^ 18) s.ethUsdPrice

/-- Source `_ethToXmr` (part_006 lines 791-794). -/
def ethToXmr (s : State) (ethAmount : Nat) : Except String Nat :=
  sdiv (ethAmount * s.ethUsdPrice / 10 ^ 18 * PICONERO_PER_XMR) s.xmrUsdPrice

/-! ## LP management (part_006 lines 301-412) -/

/-- Source `registerLP` (part_006 lines 301-317). -/
def registerLP (ctx : Ctx) (s : State) (mintFeeBps burnFeeBps : Nat)
    (moneroAddress : String) (active : Bool) : Except String State :=
  require (mintFeeBps ≤ MAX_FEE_BPS) "Mint fee too high" <|
  require (burnFeeBps ≤ MAX_FEE_BPS) "Burn fee too high" <|
  require (0 < moneroAddress.length) "Invalid Monero address" <|
  let old := s.lpInfo ctx.msgSender
  let upd : LPInfo := { old with
    mintFeeBps := mintFeeBps
    burnFeeBps := burnFeeBps
    moneroAddress := moneroAddress
    active := active }
  .ok { s with lpInfo := setMap s.lpInfo ctx.msgSender upd }

/-- Source `lpDeposit` (part_006 lines 322-338). -/
def lpDeposit (env : Env) (ctx : Ctx) (s : State) : Except String State :=
  require (0 < ctx.msgValue) "Zero amount" <|
  let wstETHReceived := env.wrapEthToWst ctx.msgValue
  let old := s.lpInfo ctx.msgSender
  let upd : LPInfo := { old with collateralAmount := old.collateralAmount + wstETHReceived }
  .ok { s with
    lpInfo := setMap s.lpInfo ctx.msgSender upd
    totalLPCollateral := s.totalLPCollateral + wstETHReceived }

/-- Source `lpDepositWstETH` (part_006 lines 343-352). -/
def lpDepositWstETH (ctx : Ctx) (s : State) (wstETHAmount : Nat) :
    Except String State :=
  require (0 < wstETHAmount) "Zero amount" <|
  let old := s.lpInfo ctx.msgSender
  let upd : LPInfo := { old with collateralAmount := old.collateralAmount + wstETHAmount }
  .ok { s with
    lpInfo := setMap s.lpInfo ctx.msgSender upd
    totalLPCollateral := s.totalLPCollateral + wstETHAmount }

/-- Source `lpWithdraw` (part_006 lines 357-378). -/
def lpWithdraw (env : Env) (ctx : Ctx) (s : State) (wstETHAmount : Nat) :
    Except String State :=
  let lp := s.lpInfo ctx.msgSender
  require (wstETHAmount ≤ lp.collateralAmount) "Insufficient collateral" <|
  let remainingCollateral := lp.collateralAmount - wstETHAmount
  let remainingValueEth := env.getStETHByWstETH remainingCollateral
  bindE (xmrToETH s lp.backedAmount) fun backedValueEth =>
  bindE
    (if 0 < lp.backedAmount then
      bindE (sdiv (remainingValueEth * 100) backedValueEth) fun ratio =>
      require ( SAFE_RATIO ≤ ratio) "Would drop below 150%" (.ok ())
    else .ok ()) fun _ =>
  bindE (ssub s.totalLPCollateral wstETHAmount) fun newTotal =>
  let upd : LPInfo := { lp with collateralAmount := remainingCollateral }
  .ok { s with
    lpInfo := setMap s.lpInfo ctx.msgSender upd
    totalLPCollateral := newTotal }

/-- Source `liquidateLP` (part_006 lines 383-412). Note the two sequential storage
writes: the target LP's collateral and then the liquidator's own collateral
are each increased by the full wstETH received, while `totalLPCollateral`
increases only once. -/
def liquidateLP (env : Env) (ctx : Ctx) (s : State) (lp : Nat) :
    Except String State :=
  require (0 < ctx.msgValue) "Zero amount" <|
  let lpData := s.lpInfo lp
  require (0 < lpData.backedAmount) "LP has no position" <|
  let collateralValueEth := env.getStETHByWstETH lpData.collateralAmount
  bindE (xmrToETH s lpData.backedAmount) fun backedValueEth =>
  bindE (sdiv (collateralValueEth * 100) backedValueEth) fun ratio =>
  require (ratio < SAFE_RATIO) "LP not in risk mode" <|
  require (LIQUIDATION_THRESHOLD ≤ ratio) "Below liquidation threshold" <|
  let wstETHReceived := env.wrapEthToWst ctx.msgValue
  let upd1 : LPInfo := { lpData with collateralAmount := lpData.collateralAmount + wstETHReceived }
  let m1 := setMap s.lpInfo lp upd1
  let liqOld := m1 ctx.msgSender
  let upd2 : LPInfo := { liqOld with collateralAmount := liqOld.collateralAmount + wstETHReceived }
  .ok { s with
    lpInfo := setMap m1 ctx.msgSender upd2
    totalLPCollateral := s.totalLPCollateral + wstETHReceived }

/-! ## Mint intents (part_006 lines 421-479) -/

/-- Source `createMintIntent` (part_006 lines 421-460). The Sybil-defense check is a
lower bound only: `expectedAmount` must be at least `MIN_MINT_BPS` (1%) of the
LP's available capacity at the 150% floor; no upper-bound capacity check is
performed here. -/
def createMintIntent (env : Env) (ctx : Ctx) (s : State) (lp : Nat)
    (expectedAmount : Nat) : Except String (IntentId × State) :=
  let lpData := s.lpInfo lp
  require lpData.active "LP not active" <|
  require (MIN_INTENT_DEPOSIT ≤ ctx.msgValue) "Deposit too small" <|
  let collateralValueEth := env.getStETHByWstETH lpData.collateralAmount
  bindE (xmrToETH s lpData.backedAmount) fun currentBackedValueEth =>
  let maxBackedValueEth := collateralValueEth * 100 / SAFE_RATIO
  let availableCapacityEth :=
    if currentBackedValueEth < maxBackedValueEth then
      maxBackedValueEth - currentBackedValueEth
    else 0
  bindE (ethToXmr s availableCapacityEth) fun availableCapacityXmr =>
  let minMintAmount := availableCapacityXmr * MIN_MINT_BPS / 10000
  require (minMintAmount ≤ expectedAmount)
      "Amount below minimum (1% of LP capacity)" <|
  let intentId : IntentId := ⟨ctx.msgSender, lp, expectedAmount, ctx.timestamp⟩
  require ((s.mintIntents intentId).user = 0) "Intent exists" <|
  let intent : MintIntent :=
    { user := ctx.msgSender
      lp := lp
      expectedAmount := expectedAmount
      depositAmount := ctx.msgValue
      createdAt := ctx.timestamp
      fulfilled := false
      cancelled := false }
  .ok (intentId, { s with mintIntents := setMap s.mintIntents intentId intent })

/-- Source `cancelMintIntent` (part_006 lines 465-479). The ETH refund is an external
transfer, modelled as succeeding. -/
def cancelMintIntent (ctx : Ctx) (s : State) (intentId : IntentId) :
    Except String State :=
  let intent := s.mintIntents intentId
  require (intent.user = ctx.msgSender) "Not your intent" <|
  require (intent.fulfilled = false) "Already fulfilled" <|
  require (intent.cancelled = false) "Already cancelled" <|
  require (intent.createdAt + MINT_INTENT_TIMEOUT < ctx.timestamp) "Not expired" <|
  let upd : MintIntent := { intent with cancelled := true }
  .ok { s with mintIntents := setMap s.mintIntents intentId upd }

/-! ## ERC20 balance model (OpenZeppelin `_mint` / `_burn` / `transfer`) -/

/-- Source `_mint(to, amount)`: credit a balance and grow the total supply. -/
def erc20Mint (s : State) (dst amount : Nat) : State :=
  { s with
    balances := setMap s.balances dst (s.balances dst + amount)
    totalSupply := s.totalSupply + amount }

/-- Source `_burn(from, amount)`: reverts when the balance is insufficient.
OpenZeppelin keeps `totalSupply` at least every individual balance, so the
supply subtraction cannot underflow on states the contract can reach. -/
def erc20Burn (s : State) (source amount : Nat) : Except String State :=
  require (amount ≤ s.balances source) "ERC20: burn amount exceeds balance" <|
  .ok { s with
    balances := setMap s.balances source (s.balances source - amount)
    totalSupply := s.totalSupply - amount }

/-- ERC20 `transfer` on the zeroXMR balances. -/
def erc20Transfer (ctx : Ctx) (s : State) (dst amount : Nat) :
    Except String State :=
  require (amount ≤ s.balances ctx.msgSender)
      "ERC20: transfer amount exceeds balance" <|
  let b1 := setMap s.balances ctx.msgSender (s.balances ctx.msgSender - amount)
  .ok { s with balances := setMap b1 dst (b1 dst + amount) }

/-! ## Mint (part_006 lines 485-544) -/

/-- Calldata of `mint` (part_006 lines 485-499). `proof` (`uint256[24]`),
`publicSignals` (`uint256[70]`) and the Merkle paths are sequences of words;
`priceUpdateData` is never read by the body (the price-update block is
commented out in the source) and is omitted. -/
structure MintArgs where
  proof : List Nat
  publicSignals : List Nat
  dleqProof : DLEQProofSol
  ed25519Proof : Ed25519ProofSol
  output : MoneroTxOutput
  blockHeight : Nat
  txMerkleProof : List Nat
  txIndex : Nat
  outputMerkleProof : List Nat
  outputIndex : Nat
  recipient : Nat
  lp : Nat

/-- The nullifier key `keccak256(abi.encodePacked(output.txHash,
output.outputIndex))` (part_006 line 522), symbolically. -/
def outputIdOf (o : MoneroTxOutput) : OutputId := ⟨o.txHash, o.outputIndex⟩

/-- Source `mint` (part_006 lines 485-544), translated as the body executes today:
the price update, all four proof-component verifications (the two Merkle
inclusion checks, `verifyStealthAddress`, `verifyDLEQ`, the PLONK
`verifier.verifyProof` call) and the collateral check are commented out in
the source ("TEMP: Skip ALL verification for basic mint test"); the body
only checks the LP's active flag, the block's presence and the nullifier,
then mints `publicSignals[0]` piconero against the LP. -/
def mint (_ctx : Ctx) (s : State) (args : MintArgs) : Except String State :=
  let lpData := s.lpInfo args.lp
  require lpData.active "LP not active" <|
  require ((s.moneroBlocks args.blockHeight).exists_ = true) "Block not posted" <|
  let v := args.publicSignals.getD 0 0
  let outputId := outputIdOf args.output
  require (s.usedOutputs outputId = false) "Output spent" <|
  let s1 := { s with usedOutputs := setMap s.usedOutputs outputId true }
  let fee := v * lpData.mintFeeBps / 10000
  bindE (ssub v fee) fun netAmount =>
  let upd : LPInfo := { lpData with backedAmount := lpData.backedAmount + v }
  let s2 := { s1 with lpInfo := setMap s1.lpInfo args.lp upd }
  let s3 := erc20Mint s2 args.recipient netAmount
  .ok (if 0 < fee then erc20Mint s3 args.lp fee else s3)

/-! ## Burn window (part_006 lines 556-639) -/

/-- Source `requestBurn` (part_006 lines 556-596). -/
def requestBurn (env : Env) (ctx : Ctx) (s : State) (amount : Nat)
    (xmrAddress : String) (lp : Nat) : Except String State :=
  require (amount ≤ s.balances ctx.msgSender) "Insufficient balance" <|
  require (MIN_INTENT_DEPOSIT ≤ ctx.msgValue) "Deposit too small" <|
  let lpData := s.lpInfo lp
  require (amount ≤ lpData.backedAmount) "LP cannot cover" <|
  bindE (xmrToETH s amount) fun xmrValueEth =>
  let collateralNeededEth := xmrValueEth * SAFE_RATIO / 100
  let wstETHNeeded := env.getWstETHByStETH collateralNeededEth
  require (wstETHNeeded ≤ lpData.collateralAmount) "LP insufficient collateral" <|
  bindE (erc20Burn s ctx.msgSender amount) fun s1 =>
  let upd : LPInfo := { lpData with
    collateralAmount := lpData.collateralAmount - wstETHNeeded
    backedAmount := lpData.backedAmount - amount }
  bindE (ssub s1.totalLPCollateral wstETHNeeded) fun newTotal =>
  let burnId := s1.nextBurnId
  let request : BurnRequest :=
    { user := ctx.msgSender
      lp := lp
      amount := amount
      depositAmount := ctx.msgValue
      xmrAddress := xmrAddress
      requestTime := ctx.timestamp
      collateralLocked := wstETHNeeded
      fulfilled := false
      defaulted := false }
  .ok { s1 with
    lpInfo := setMap s1.lpInfo lp upd
    totalLPCollateral := newTotal
    nextBurnId := burnId + 1
    burnRequests := setMap s1.burnRequests burnId request }

/-- Source `fulfillBurn` (part_006 lines 601-618). The user's ETH deposit refund is
an external transfer, modelled as succeeding. -/
def fulfillBurn (ctx : Ctx) (s : State) (burnId : Nat) (_xmrTxHash : Nat) :
    Except String State :=
  let request := s.burnRequests burnId
  require (ctx.msgSender = request.lp) "Not the LP" <|
  require (request.fulfilled = false ∧ request.defaulted = false)
      "Already processed" <|
  require (ctx.timestamp ≤ request.requestTime + BURN_TIMEOUT) "Timeout" <|
  let lpOld := s.lpInfo request.lp
  .ok { s with
    burnRequests := setMap s.burnRequests burnId { request with fulfilled := true }
    lpInfo := setMap s.lpInfo request.lp
      { lpOld with collateralAmount := lpOld.collateralAmount + request.collateralLocked }
    totalLPCollateral := s.totalLPCollateral + request.collateralLocked }

/-- Source `claimDefault` (part_006 lines 623-639). The wstETH transfer to the user
and the ETH deposit refund are external transfers, modelled as succeeding. -/
def claimDefault (ctx : Ctx) (s : State) (burnId : Nat) : Except String State :=
  let request := s.burnRequests burnId
  require (ctx.msgSender = request.user) "Not the user" <|
  require (request.fulfilled = false ∧ request.defaulted = false)
      "Already processed" <|
  require (request.requestTime + BURN_TIMEOUT < ctx.timestamp) "Not expired" <|
  let upd : BurnRequest := { request with defaulted := true }
  .ok { s with burnRequests := setMap s.burnRequests burnId upd }

/-! ## Oracle entry points (part_006 lines 648-689, 255-284) -/

/-- Source `postMoneroBlock` (part_006 lines 648-668). -/
def postMoneroBlock (ctx : Ctx) (s : State) (blockHeight blockHash
    txMerkleRoot outputMerkleRoot : Nat) : Except String State :=
  require (ctx.msgSender = s.oracle) "Only oracle" <|
  require (s.latestMoneroBlock < blockHeight) "Height must increase" <|
  require ((s.moneroBlocks blockHeight).exists_ = false) "Block exists" <|
  let record : MoneroBlockData :=
    { blockHash := blockHash
      txMerkleRoot := txMerkleRoot
      outputMerkleRoot := outputMerkleRoot
      timestamp := ctx.timestamp
      exists_ := true }
  .ok { s with
    moneroBlocks := setMap s.moneroBlocks blockHeight record
    latestMoneroBlock := blockHeight }

/-- Source `transferOracle` (part_006 lines 670-672). -/
def transferOracle (ctx : Ctx) (s : State) (newOracle : Nat) :
    Except String State :=
  require (ctx.msgSender = s.oracle) "Only oracle" <|
  .ok { s with oracle := newOracle }

/-- Source `_updatePrices` (part_006 lines 269-284), reached through
`updatePythPrice`. The Pyth feed reads and 18-decimal normalisation are
external; `newXmrPrice` / `newEthPrice` stand for the normalised fresh
quotes, required positive as in the source, then smoothed 90/10. -/
def updatePrices (ctx : Ctx) (s : State) (newXmrPrice newEthPrice : Nat) :
    Except String State :=
  require (0 < newXmrPrice ∧ 0 < newEthPrice) "Invalid prices" <|
  .ok { s with
    xmrUsdPrice := if s.xmrUsdPrice = 0 then newXmrPrice
                   else (s.xmrUsdPrice * 9 + newXmrPrice) / 10
    ethUsdPrice := if s.ethUsdPrice = 0 then newEthPrice
                   else (s.ethUsdPrice * 9 + newEthPrice) / 10
    lastPriceUpdate := ctx.timestamp }

/-! ## Views and on-chain sanity checks -/

/-- Source `getLPRatio` (part_006 lines 819-826). -/
def getLPRatio (env : Env) (s : State) (lp : Nat) : Except String Nat :=
  let lpData := s.lpInfo lp
  if lpData.backedAmount = 0 then .ok (2 ^ 256 - 1)
  else
    bindE (xmrToETH s lpData.backedAmount) fun backedValueEth =>
    sdiv (env.getStETHByWstETH lpData.collateralAmount * 100) backedValueEth

/-- Source `verifyDLEQ` (part_006 lines 705-710): the only on-chain DLEQ check is
that `c` and `s` are nonzero (full verification is attested off-chain). -/
def verifyDLEQ (dleq : DLEQProofSol) : Except String Bool :=
  require (dleq.c ≠ 0 ∧ dleq.s ≠ 0) "Invalid DLEQ" <|
  .ok true

/-! ## Whole-contract step relation -/

/-- One external call to the contract. `updatePythPrice` carries the
normalised fresh Pyth quotes (the feed is external). -/
inductive Call where
  | registerLP (mintFeeBps burnFeeBps : Nat) (moneroAddress : String)
      (active : Bool)
  | lpDeposit
  | lpDepositWstETH (amount : Nat)
  | lpWithdraw (amount : Nat)
  | liquidateLP (lp : Nat)
  | createMintIntent (lp expectedAmount : Nat)
  | cancelMintIntent (intentId : IntentId)
  | mint (args : MintArgs)
  | requestBurn (amount : Nat) (xmrAddress : String) (lp : Nat)
  | fulfillBurn (burnId xmrTxHash : Nat)
  | claimDefault (burnId : Nat)
  | postMoneroBlock (blockHeight blockHash txMerkleRoot outputMerkleRoot : Nat)
  | transferOracle (newOracle : Nat)
  | updatePythPrice (newXmrPrice newEthPrice : Nat)
  | erc20Transfer (dst amount : Nat)

/-- The serialized transaction semantics: one call either reverts, leaving
the state untouched, or commits its full effect. -/
def step (env : Env) (ctx : Ctx) (s : State) : Call → Except String State
  | .registerLP a b m act => registerLP ctx s a b m act
  | .lpDeposit => lpDeposit env ctx s
  | .lpDepositWstETH amount => lpDepositWstETH ctx s amount
  | .lpWithdraw amount => lpWithdraw env ctx s amount
  | .liquidateLP lp => liquidateLP env ctx s lp
  | .createMintIntent lp amt => bindE (createMintIntent env ctx s lp amt)
      fun r => .ok r.2
  | .cancelMintIntent intentId => cancelMintIntent ctx s intentId
  | .mint args => mint ctx s args
  | .requestBurn amount addr lp => requestBurn env ctx s amount addr lp
  | .fulfillBurn burnId tx => fulfillBurn ctx s burnId tx
  | .claimDefault burnId => claimDefault ctx s burnId
  | .postMoneroBlock h bh tr orr => postMoneroBlock ctx s h bh tr orr
  | .transferOracle newOracle => transferOracle ctx s newOracle
  | .updatePythPrice x e => updatePrices ctx s x e
  | .erc20Transfer dst amount => erc20Transfer ctx s dst amount

/-! ## Merkle verifier (part_006 lines 727-771) and proof construction
(part_001 lines 58-89)

`verifyMerkleProof` and `verifyMerkleProofSHA256` in the contract share one
algorithm and differ only in the pair-hash (`keccak256` vs `sha256` over the
64-byte concatenation); the off-ledger builder is likewise generic in the
hash it is instantiated with. The embedding is therefore parameterised by
the pair-hash `hash2 : H → H → H` over an abstract digest type. -/

/-- The verifier's upward fold (the loop of `verifyMerkleProof`, part_006
lines 735-745): hash `(current, sibling)` or `(sibling, current)` by the
parity of `index`, halving `index` each round. -/
def foldMerkle {H : Type} (hash2 : H → H → H) : H → List H → Nat → H
  | computedHash, [], _ => computedHash
  | computedHash, proofElement :: rest, index =>
    foldMerkle hash2
      (if index % 2 = 0 then hash2 computedHash proofElement
       else hash2 proofElement computedHash)
      rest (index / 2)

/-- Source `verifyMerkleProof` (part_006 lines 727-748): fold the leaf up and
compare with the root. -/
def verifyMerkleProof {H : Type} [DecidableEq H] (hash2 : H → H → H)
    (leaf root : H) (proof : List H) (index : Nat) : Bool :=
  decide (foldMerkle hash2 leaf proof index = root)

/-- One level-building pass of the off-ledger tree construction (part_001
lines 64-81): hash adjacent pairs, duplicating the last node of an
odd-length level. -/
def pairUp {H : Type} (hash2 : H → H → H) : List H → List H
  | [] => []
  | [x] => [hash2 x x]
  | x :: y :: rest => hash2 x y :: pairUp hash2 rest

/-- The sibling recorded for `i` inside its pair (part_001 lines 73-76):
the right neighbour for an even index (the node itself when the level ends
there, the duplication rule), the left neighbour for an odd index. -/
def siblingOf {H : Type} (d : H) (level : List H) (i : Nat) : H :=
  if i % 2 = 0 then level.getD (i + 1) (level.getD i d) else level.getD (i - 1) d

/-- Source `computeMerkleProofFromLeaves` (part_001 lines 58-89): walk the levels
while more than one node remains, recording the target's sibling at each
level. For a target index inside the level the pair containing it
contributes exactly one sibling per level, which is `siblingOf`. -/
def computeMerkleProofFromLeaves {H : Type} (hash2 : H → H → H) (d : H) :
    List H → Nat → List H
  | currentLevel, currentIndex =>
    if h : currentLevel.length ≤ 1 then []
    else
      siblingOf d currentLevel currentIndex ::
        computeMerkleProofFromLeaves hash2 d (pairUp hash2 currentLevel)
          (currentIndex / 2)
termination_by currentLevel _ => currentLevel.length
decreasing_by
  have key : ∀ n (l : List H), l.length ≤ n →
      (pairUp hash2 l).length = (l.length + 1) / 2 := by
    intro n
    induction n with
    | zero =>
      intro l hl
      cases l with
      | nil => simp [pairUp]
      | cons x t => simp at hl
    | succ n ih =>
      intro l hl
      cases l with
      | nil => simp [pairUp]
      | cons x t =>
        cases t with
        | nil => simp [pairUp]
        | cons y rest =>
          have hr := ih rest (by simp at hl; omega)
          simp [pairUp, hr]
          omega
  show (pairUp hash2 currentLevel).length < currentLevel.length
  have hk := key currentLevel.length currentLevel le_rfl
  omega

/-- The root of the tree the builder walks (part_001 lines 64-86): iterate
`pairUp` down to a single node. A singleton level is its own root; the
(unused) root of an empty leaf list is the default digest. -/
def merkleRootFromLeaves {H : Type} (hash2 : H → H → H) (d : H) :
    List H → H
  | currentLevel =>
    if _h : currentLevel.length ≤ 1 then currentLevel.getD 0 d
    else merkleRootFromLeaves hash2 d (pairUp hash2 currentLevel)
termination_by currentLevel => currentLevel.length
decreasing_by
  have key : ∀ n (l : List H), l.length ≤ n →
      (pairUp hash2 l).length = (l.length + 1) / 2 := by
    intro n
    induction n with
    | zero =>
      intro l hl
      cases l with
      | nil => simp [pairUp]
      | cons x t => simp at hl
    | succ n ih =>
      intro l hl
      cases l with
      | nil => simp [pairUp]
      | cons x t =>
        cases t with
        | nil => simp [pairUp]
        | cons y rest =>
          have hr := ih rest (by simp at hl; omega)
          simp [pairUp, hr]
          omega
  show (pairUp hash2 currentLevel).length < currentLevel.length
  have hk := key currentLevel.length currentLevel le_rfl
  omega

/-! ## Ed25519 field and group operations (contracts/libraries/Ed25519.sol) -/

namespace Ed25519

/-- The prime `p = 2^255 - 19` (Ed25519.sol line 23). -/
def P : Nat := 2 ^ 255 - 19

/-- The group order `l = 2^252 + 27742317777372353535851937790883648493`
(Ed25519.sol line 26). -/
def L : Nat := 2 ^ 252 + 27742317777372353535851937790883648493

/-- The curve constant `d = -121665/121666 mod p` (Ed25519.sol line 29). -/
def D : Nat := 0x52036cee2b6ffe738cc740797779e89800700a4d4141d8ab75eb4dca135978a3

/-- Base point x (Ed25519.sol line 32). -/
def G_X : Nat := 0x216936d3cd6e53fec0a4e231fdd6dc5c692cc7609525a7b2c9562d608f25d51a

/-- Base point y (Ed25519.sol line 33). -/
def G_Y : Nat := 0x6666666666666666666666666666666666666666666666666666666666666658

/-- EVM `mulmod`. The contract only calls it with modulus `P`, never zero. -/
def mulmod (a b m : Nat) : Nat := a * b % m

/-- EVM `addmod`. -/
def addmod (a b m : Nat) : Nat := (a + b) % m

/-- Source `submod` (Ed25519.sol lines 164-170). -/
def submod (a b m : Nat) : Nat :=
  if b ≤ a then (a - b) % m else (m - (b - a) % m) % m

/-- The loop of `expmod` (Ed25519.sol lines 144-155), square-and-multiply
with the running accumulator explicit. -/
def expmodGo (base exp mod result : Nat) : Nat :=
  if h : exp = 0 then result
  else
    expmodGo (mulmod base base mod) (exp / 2) mod
      (if exp % 2 = 1 then mulmod result base mod else result)
termination_by exp
decreasing_by exact Nat.div_lt_self (Nat.pos_of_ne_zero h) one_lt_two

/-- Source `expmod` (Ed25519.sol lines 144-155). -/
def expmod (base exp mod : Nat) : Nat := expmodGo (base % mod) exp mod 1

/-- Source `invmod` by Fermat (Ed25519.sol lines 131-135). -/
def invmod (a m : Nat) : Nat := expmod a (m - 2) m

/-- Source `pointAdd` (Ed25519.sol lines 44-76), the complete Edwards addition
formula in affine coordinates. -/
def pointAdd (x1 y1 x2 y2 : Nat) : Nat × Nat :=
  let x1y2 := mulmod x1 y2 P
  let y1x2 := mulmod y1 x2 P
  let x1x2 := mulmod x1 x2 P
  let y1y2 := mulmod y1 y2 P
  let dx1x2y1y2 := mulmod D (mulmod x1x2 y1y2 P) P
  let x3num := addmod x1y2 y1x2 P
  let x3den := addmod 1 dx1x2y1y2 P
  let y3num := submod y1y2 x1x2 P
  let y3den := submod 1 dx1x2y1y2 P
  (mulmod x3num (invmod x3den P) P, mulmod y3num (invmod y3den P) P)

/-- Source `isOnCurve` (Ed25519.sol lines 114-123): `-x^2 + y^2 = 1 + d x^2 y^2`
over the field. -/
def isOnCurve (x y : Nat) : Bool :=
  let x2 := mulmod x x P
  let y2 := mulmod y y P
  decide (submod y2 x2 P = addmod 1 (mulmod D (mulmod x2 y2 P) P) P)

/-- The double-and-add loop of `scalarMul` (Ed25519.sol lines 86-106; the
JS `scalarMult`, part_002 lines 223-240, is the same loop), instrumented:
alongside the accumulator it records, per iteration, whether the
conditional point addition fired. The loop runs `while (k > 0)` — one
doubling per iteration and one addition per set low bit — so the returned
trace is the operation schedule the execution actually performs. -/
def scalarMulTraced (padd : Nat × Nat → Nat × Nat → Nat × Nat) :
    Nat → Nat × Nat → Nat × Nat → (Nat × Nat) × List Bool
  | k, r, p =>
    if h : k = 0 then (r, [])
    else
      let r' := if k % 2 = 1 then padd r p else r
      let rest := scalarMulTraced padd (k / 2) r' (padd p p)
      (rest.1, decide (k % 2 = 1) :: rest.2)
termination_by k _ _ => k
decreasing_by exact Nat.div_lt_self (Nat.pos_of_ne_zero h) one_lt_two

/-- Source `scalarMul` (Ed25519.sol lines 86-106): double-and-add from the
identity `(0, 1)`. -/
def scalarMul (k x y : Nat) : Nat × Nat :=
  (scalarMulTraced (fun a b => pointAdd a.1 a.2 b.1 b.2) k (0, 1) (x, y)).1

/-- The structural shape of the `scalarMul` loop as a function of the
scalar alone: the list of per-iteration conditional-addition flags (the
list's length is the number of doublings, the `true` entries are the
additions performed). -/
def scalarMulOps : Nat → List Bool
  | k =>
    if h : k = 0 then []
    else decide (k % 2 = 1) :: scalarMulOps (k / 2)
termination_by k => k
decreasing_by exact Nat.div_lt_self (Nat.pos_of_ne_zero h) one_lt_two

end Ed25519

/-! ## Off-ledger DLEQ prover and verifier
(scripts/proofGeneration/generate_dleq.js lines 27-79 and 91-163)

The script works on prime-order ed25519 points through the noble library
(an external dependency); that point arithmetic is modelled as an arbitrary
additive commutative group `V` with a scalar action of the scalar ring
`ZMod ell` (in the deployment `ell = Ed25519.L`, a prime). The Fiat-Shamir
challenge — keccak over the fixed 64-byte uncompressed encodings of
`(G, A, R, rA, K1, K2)`, reduced mod `L` (lines 36-61 and 118-143) — is
abstracted as a function `Hc` of the six points hashed. -/

/-- A DLEQ proof `{c, s, K1, K2}` (generate_dleq.js lines 67-78). -/
structure DLEQProofData (ell : Nat) (V : Type) where
  c : ZMod ell
  s : ZMod ell
  K1 : V
  K2 : V

/-- Source `generateDLEQProof` (generate_dleq.js lines 27-79) with the random
nonce `k` an explicit argument: commitments `K1 = k·G`, `K2 = k·A`,
challenge `c = Hc(G, A, R, rA, K1, K2)` with `R = r·G` and `rA = r·A`,
response `s = k + c·r mod L`. -/
def generateDLEQProof {ell : Nat} {V : Type} [AddCommGroup V]
    [Module (ZMod ell) V] (Hc : V → V → V → V → V → V → ZMod ell)
    (k r : ZMod ell) (G A : V) : DLEQProofData ell V :=
  let K1 := k • G
  let K2 := k • A
  let c := Hc G A (r • G) (r • A) K1 K2
  { c := c, s := k + c * r, K1 := K1, K2 := K2 }

/-- Source `verifyDLEQProof` (generate_dleq.js lines 91-163): recompute the
challenge and accept iff `s·G = K1 + c·R`, `s·A = K2 + c·rA`, and the
recomputed challenge equals the proof's `c` (the conjunction
`eq1 && eq2 && eq3` of line 162). -/
def verifyDLEQProof {ell : Nat} {V : Type} [AddCommGroup V]
    [Module (ZMod ell) V] [DecidableEq V] [DecidableEq (ZMod ell)]
    (Hc : V → V → V → V → V → V → ZMod ell)
    (prf : DLEQProofData ell V) (G A R rA : V) : Bool :=
  decide (prf.s • G = prf.K1 + prf.c • R) &&
  decide (prf.s • A = prf.K2 + prf.c • rA) &&
  decide (prf.c = Hc G A R rA prf.K1 prf.K2)

/-! ## Concrete scenario data for the executable instances

A mock environment where wstETH converts 1:1 with ETH (the behaviour of
`MockWstETH`, part_007) and both USD quotes equal `10^18`, so
1 XMR = 1 ETH and one piconero values `10^6` wei. -/

/-- Is the call's result a committed state? -/
def isOkE {α : Type} : Except String α → Bool
  | .ok _ => true
  | .error _ => false

/-- The 1:1 wstETH environment (the `MockWstETH` deployment, part_007). -/
def idEnv : Env :=
  { wrapEthToWst := id, getStETHByWstETH := id, getWstETHByStETH := id }

/-- The all-zero LP record of an untouched mapping slot. -/
def zeroLP : LPInfo :=
  { collateralAmount := 0, backedAmount := 0, mintFeeBps := 0, burnFeeBps := 0
    moneroAddress := "", active := false }

/-- The all-zero mint-intent record. -/
def zeroIntent : MintIntent :=
  { user := 0, lp := 0, expectedAmount := 0, depositAmount := 0, createdAt := 0
    fulfilled := false, cancelled := false }

/-- The all-zero burn-request record. -/
def zeroBurn : BurnRequest :=
  { user := 0, lp := 0, amount := 0, depositAmount := 0, xmrAddress := ""
    requestTime := 0, collateralLocked := 0, fulfilled := false, defaulted := false }

/-- The all-zero block record (`exists = false`). -/
def zeroBlock : MoneroBlockData :=
  { blockHash := 0, txMerkleRoot := 0, outputMerkleRoot := 0, timestamp := 0
    exists_ := false }

/-- Fresh post-deployment state: oracle at address 1, both prices `10^18`. -/
def baseState : State :=
  { oracle := 1
    lpInfo := fun _ => zeroLP
    mintIntents := fun _ => zeroIntent
    usedOutputs := fun _ => false
    burnRequests := fun _ => zeroBurn
    nextBurnId := 0
    moneroBlocks := fun _ => zeroBlock
    latestMoneroBlock := 0
    xmrUsdPrice := 10 ^ 18
    ethUsdPrice := 10 ^ 18
    lastPriceUpdate := 0
    balances := fun _ => 0
    totalSupply := 0
    totalLPCollateral := 0 }

/-- A relayed block at height 100 whose transaction Merkle root is 9. -/
def postedBlock : MoneroBlockData :=
  { blockHash := 11, txMerkleRoot := 9, outputMerkleRoot := 13, timestamp := 50
    exists_ := true }

/-- An active LP (address 2) with a 1% mint fee and no collateral at all. -/
def lpActivePoor : LPInfo :=
  { collateralAmount := 0, backedAmount := 0, mintFeeBps := 100, burnFeeBps := 0
    moneroAddress := "m", active := true }

/-- State with the collateral-less active LP and the block at height 100. -/
def mintState : State :=
  { baseState with
    lpInfo := setMap baseState.lpInfo 2 lpActivePoor
    moneroBlocks := setMap baseState.moneroBlocks 100 postedBlock }

/-- A mint call whose proof components are all invalid: empty Merkle paths
that cannot reach the posted root, a DLEQ attestation with `c = s = 0`
(rejected by the contract's own `verifyDLEQ`), and all-zero curve points
(not on the curve). `publicSignals[0]` claims 5 XMR. -/
def badMintArgs : MintArgs :=
  { proof := []
    publicSignals := [5 * 10 ^ 12]
    dleqProof := { c := 0, s := 0, K1 := 0, K2 := 0 }
    ed25519Proof :=
      { R_x := 0, R_y := 0, S_x := 0, S_y := 0, P_x := 0, P_y := 0, B_x := 0
        B_y := 0, G_x := 0, G_y := 0, A_x := 0, A_y := 0 }
    output := { txHash := 7, outputIndex := 0, ecdhAmount := 0, outputPubKey := 0
                commitment := 0 }
    blockHeight := 100
    txMerkleProof := []
    txIndex := 0
    outputMerkleProof := []
    outputIndex := 0
    recipient := 3
    lp := 2 }

/-- A caller with no ETH attached. -/
def anyCtx : Ctx := { msgSender := 4, msgValue := 0, timestamp := 60 }

/-- Source `mintState` after the output `(7, 0)` has been spent. -/
def usedState : State :=
  { mintState with usedOutputs := setMap mintState.usedOutputs ⟨7, 0⟩ true }

/-- An active fee-less LP holding `10^18` wstETH against `10^12` piconero
of backing: collateral ratio 100%, below the 150% floor. -/
def lpUnder : LPInfo :=
  { collateralAmount := 10 ^ 18, backedAmount := 10 ^ 12, mintFeeBps := 0
    burnFeeBps := 0, moneroAddress := "m", active := true }

/-- State with the under-collateralised LP (ratio 100%) and block 100. -/
def underState : State :=
  { baseState with
    lpInfo := setMap baseState.lpInfo 2 lpUnder
    moneroBlocks := setMap baseState.moneroBlocks 100 postedBlock
    totalLPCollateral := 10 ^ 18 }

/-- A mint of 1 XMR against LP 2 from the unspent output `(8, 0)`. -/
def mintArgsC3 : MintArgs :=
  { badMintArgs with
    publicSignals := [10 ^ 12]
    output := { txHash := 8, outputIndex := 0, ecdhAmount := 0, outputPubKey := 0
                commitment := 0 } }

/-- A pending-then-fulfilled burn request: LP 2 owes user 3 one XMR. -/
def doneBurn : BurnRequest :=
  { user := 3, lp := 2, amount := 10 ^ 12, depositAmount := 10 ^ 15
    xmrAddress := "x", requestTime := 10, collateralLocked := 15 * 10 ^ 17
    fulfilled := true, defaulted := false }

/-- State whose burn request 0 has already been fulfilled. -/
def doneBurnState : State :=
  { baseState with
    burnRequests := setMap baseState.burnRequests 0 doneBurn
    nextBurnId := 1 }

/-- The LP named by `doneBurn` calling within the window. -/
def lpCtx : Ctx := { msgSender := 2, msgValue := 0, timestamp := 100 }

/-- The requester named by `doneBurn` calling after the window. -/
def userCtx : Ctx := { msgSender := 3, msgValue := 0, timestamp := 10 ^ 6 }

/-- An active fee-less LP with 10 ETH worth of collateral and nothing
backed: available capacity `10 * 100/150 = 6.67` XMR at the 150% floor. -/
def lpTen : LPInfo :=
  { collateralAmount := 10 * 10 ^ 18, backedAmount := 0, mintFeeBps := 0
    burnFeeBps := 0, moneroAddress := "m", active := true }

/-- State with the 10-collateral LP of the capacity scenario. -/
def capState : State :=
  { baseState with
    lpInfo := setMap baseState.lpInfo 2 lpTen
    totalLPCollateral := 10 * 10 ^ 18 }

/-- The intent creator, attaching the minimum anti-griefing deposit. -/
def capCtx : Ctx := { msgSender := 3, msgValue := 10 ^ 15, timestamp := 77 }

/-- An active LP at ratio 130% (risk mode): `13*10^17` wstETH against
`10^12` piconero backed. -/
def lpRisk : LPInfo :=
  { collateralAmount := 13 * 10 ^ 17, backedAmount := 10 ^ 12, mintFeeBps := 0
    burnFeeBps := 0, moneroAddress := "m", active := true }

/-- State with the risk-mode LP. -/
def riskState : State :=
  { baseState with
    lpInfo := setMap baseState.lpInfo 2 lpRisk
    totalLPCollateral := 13 * 10 ^ 17 }

/-- A third-party liquidator attaching `10^17` wei. -/
def liqCtx : Ctx := { msgSender := 4, msgValue := 10 ^ 17, timestamp := 0 }

/-- The state `liquidateLP idEnv liqCtx riskState 2` commits: the target
LP's recorded collateral grows by the full `10^17` wrapped wstETH and the
liquidator's own recorded collateral grows by the same `10^17` again,
while `totalLPCollateral` grows only once. -/
def liqResState : State :=
  { riskState with
    lpInfo := setMap (setMap riskState.lpInfo 2
        { lpRisk with collateralAmount := 14 * 10 ^ 17 }) 4
        { zeroLP with collateralAmount := 10 ^ 17 }
    totalLPCollateral := 14 * 10 ^ 17 }

/-- A concrete Fiat-Shamir challenge function over the 5-element model
group used by the DLEQ instance. -/
def hc5 : ZMod 5 → ZMod 5 → ZMod 5 → ZMod 5 → ZMod 5 → ZMod 5 → ZMod 5 :=
  fun _ _ _ _ _ _ => 3

/-- Total LP-recorded collateral over a set of addresses, the quantity
`totalLPCollateral` is meant to track. -/
def sumColl (m : Nat → LPInfo) (addrs : List Nat) : Nat :=
  (addrs.map fun a => (m a).collateralAmount).sum

/-! # Theorems

General lemmas about the embedding's building blocks, then one theorem per
claim (with its executable instance where the statement carries
hypotheses). -/

theorem require_ok_iff {α : Type} {c : Prop} [Decidable c] {msg : String}
    {k : Except String α} {v : α} :
    require c msg k = .ok v ↔ c ∧ k = .ok v := by
  unfold require
  split <;> simp_all

theorem require_not {α : Type} {c : Prop} [Decidable c] {msg : String}
    {k : Except String α} (h : ¬ c) : require c msg k = .error msg := by
  simp [require, h]

theorem require_pos {α : Type} {c : Prop} [Decidable c] {msg : String}
    {k : Except String α} (h : c) : require c msg k = k := by
  simp [require, h]

theorem bindE_ok_iff {α β : Type} {x : Except String α}
    {k : α → Except String β} {b : β} :
    bindE x k = .ok b ↔ ∃ a, x = .ok a ∧ k a = .ok b := by
  cases x <;> simp [bindE]

theorem bindE_ok_left {α β : Type} (v : α) (k : α → Except String β) :
    bindE (.ok v) k = k v := rfl

theorem ssub_ok_iff {a b n : Nat} : ssub a b = .ok n ↔ b ≤ a ∧ n = a - b := by
  unfold ssub
  split <;> simp_all
  exact eq_comm

theorem sdiv_ok_iff {a b n : Nat} : sdiv a b = .ok n ↔ b ≠ 0 ∧ n = a / b := by
  unfold sdiv
  split <;> simp_all
  exact eq_comm

theorem setMap_same {κ α : Type} [DecidableEq κ] (m : κ → α) (k : κ) (v : α) :
    setMap m k v k = v := by
  simp [setMap]

theorem setMap_other {κ α : Type} [DecidableEq κ] (m : κ → α) (k a : κ)
    (v : α) (h : a ≠ k) : setMap m k v a = m a := by
  simp [setMap, h]

/-! ## Merkle lemmas -/

theorem pairUp_length {H : Type} (hash2 : H → H → H) :
    ∀ l : List H, (pairUp hash2 l).length = (l.length + 1) / 2
  | [] => by simp [pairUp]
  | [x] => by simp [pairUp]
  | x :: y :: rest => by
    have ih := pairUp_length hash2 rest
    simp [pairUp, ih]
    omega

theorem pairUp_getD {H : Type} (hash2 : H → H → H) (d : H) :
    ∀ (l : List H) (i : Nat), i < l.length →
      (pairUp hash2 l).getD (i / 2) d =
        if i % 2 = 0 then hash2 (l.getD i d) (siblingOf d l i)
        else hash2 (siblingOf d l i) (l.getD i d)
  | [], i => by simp
  | [x], i => by
    intro hi
    have hi0 : i = 0 := by simp at hi; omega
    subst hi0
    simp [pairUp, siblingOf]
  | x :: y :: rest, 0 => by
    intro _
    simp [pairUp, siblingOf]
  | x :: y :: rest, 1 => by
    intro _
    simp [pairUp, siblingOf]
  | x :: y :: rest, (j + 2) => by
    intro hi
    simp only [List.length_cons] at hi
    have ih := pairUp_getD hash2 d rest j (by omega)
    have hdiv : (j + 2) / 2 = j / 2 + 1 := by omega
    have hmod : (j + 2) % 2 = j % 2 := by omega
    have hsib : siblingOf d (x :: y :: rest) (j + 2) = siblingOf d rest j := by
      unfold siblingOf
      rw [hmod]
      by_cases hp : j % 2 = 0
      · rw [if_pos hp, if_pos hp]
        simp [List.getD_cons_succ]
      · rw [if_neg hp, if_neg hp]
        have h1 : j + 2 - 1 = (j - 1) + 2 := by omega
        rw [h1]
        simp [List.getD_cons_succ]
    have hget : (x :: y :: rest).getD (j + 2) d = rest.getD j d := by
      simp [List.getD_cons_succ]
    rw [hdiv, hmod, hsib, hget]
    simpa [pairUp, List.getD_cons_succ] using ih

theorem foldMerkle_computeProof {H : Type} (hash2 : H → H → H) (d : H) :
    ∀ (n : Nat) (l : List H), l.length ≤ n → ∀ i, i < l.length →
      foldMerkle hash2 (l.getD i d) (computeMerkleProofFromLeaves hash2 d l i) i
        = merkleRootFromLeaves hash2 d l := by
  intro n
  induction n with
  | zero =>
    intro l hl i hi
    omega
  | succ n ih =>
    intro l hl i hi
    by_cases hshort : l.length ≤ 1
    · have hi0 : i = 0 := by omega
      subst hi0
      rw [computeMerkleProofFromLeaves, merkleRootFromLeaves]
      simp [hshort, foldMerkle]
    · rw [computeMerkleProofFromLeaves, merkleRootFromLeaves]
      simp only [dif_neg hshort]
      have hplen := pairUp_length hash2 l
      have hrec := ih (pairUp hash2 l) (by omega) (i / 2) (by omega)
      have hcomb := pairUp_getD hash2 d l i hi
      simp only [foldMerkle]
      rw [← hcomb]
      exact hrec

theorem foldMerkle_inj {H : Type} (hash2 : H → H → H)
    (hinj : ∀ a b a' b', hash2 a b = hash2 a' b' → a = a' ∧ b = b') :
    ∀ (proof : List H) (i : Nat) (x y : H),
      foldMerkle hash2 x proof i = foldMerkle hash2 y proof i → x = y
  | [], i, x, y => by simp [foldMerkle]
  | p :: ps, i, x, y => by
    intro h
    simp only [foldMerkle] at h
    have hstep := foldMerkle_inj hash2 hinj ps (i / 2) _ _ h
    by_cases hpar : i % 2 = 0
    · simp only [hpar, if_pos rfl] at hstep
      exact (hinj _ _ _ _ hstep).1
    · simp only [hpar, if_neg hpar] at hstep
      exact (hinj _ _ _ _ hstep).2

theorem foldMerkle_set_ne {H : Type} (hash2 : H → H → H) (d : H)
    (hinj : ∀ a b a' b', hash2 a b = hash2 a' b' → a = a' ∧ b = b') :
    ∀ (proof : List H) (j : Nat) (p' x : H) (i : Nat), j < proof.length →
      p' ≠ proof.getD j d →
      foldMerkle hash2 x (proof.set j p') i ≠ foldMerkle hash2 x proof i
  | [], j, p', x, i => by simp
  | p :: ps, 0, p', x, i => by
    intro _ hne h
    simp only [List.set, foldMerkle] at h
    have hstep := foldMerkle_inj hash2 hinj ps (i / 2) _ _ h
    by_cases hpar : i % 2 = 0
    · simp only [hpar, if_pos rfl] at hstep
      exact hne ((hinj _ _ _ _ hstep).2.trans (by simp))
    · simp only [hpar, if_neg hpar] at hstep
      exact hne ((hinj _ _ _ _ hstep).1.trans (by simp))
  | p :: ps, (j + 1), p', x, i => by
    intro hj hne h
    simp only [List.set, foldMerkle] at h
    exact foldMerkle_set_ne hash2 d hinj ps j p' _ (i / 2)
      (by simpa using hj) (by simpa using hne) h

/-- Claim C7: Merkle round-trip: for every tree built over the leaves with
the odd-level last-node-duplication rule and every in-range leaf index `i`,
the contract's `verifyMerkleProof` accepts the leaf against the tree root
under the path `computeMerkleProofFromLeaves` produces; and — the pair-hash
being collision-free on the 64-byte blocks it consumes — it rejects every
mutation of the leaf, of the root, or of any single path element. -/
theorem merkle_roundtrip {H : Type} [DecidableEq H] (hash2 : H → H → H)
    (d : H) (hinj : ∀ a b a' b', hash2 a b = hash2 a' b' → a = a' ∧ b = b')
    (leaves : List H) (i : Nat) (hi : i < leaves.length) :
    verifyMerkleProof hash2 (leaves.getD i d)
      (merkleRootFromLeaves hash2 d leaves)
      (computeMerkleProofFromLeaves hash2 d leaves i) i = true
    ∧ (∀ leaf', leaf' ≠ leaves.getD i d →
        verifyMerkleProof hash2 leaf' (merkleRootFromLeaves hash2 d leaves)
          (computeMerkleProofFromLeaves hash2 d leaves i) i = false)
    ∧ (∀ root', root' ≠ merkleRootFromLeaves hash2 d leaves →
        verifyMerkleProof hash2 (leaves.getD i d) root'
          (computeMerkleProofFromLeaves hash2 d leaves i) i = false)
    ∧ (∀ j p', j < (computeMerkleProofFromLeaves hash2 d leaves i).length →
        p' ≠ (computeMerkleProofFromLeaves hash2 d leaves i).getD j d →
        verifyMerkleProof hash2 (leaves.getD i d)
          (merkleRootFromLeaves hash2 d leaves)
          ((computeMerkleProofFromLeaves hash2 d leaves i).set j p') i
            = false) := by
  have hfold := foldMerkle_computeProof hash2 d leaves.length leaves le_rfl i hi
  refine ⟨?_, ?_, ?_, ?_⟩
  · simp only [verifyMerkleProof, decide_eq_true_eq]
    exact hfold
  · intro leaf' hne
    simp only [verifyMerkleProof, decide_eq_false_iff_not]
    intro hEq
    exact hne (foldMerkle_inj hash2 hinj _ i _ _ (hEq.trans hfold.symm))
  · intro root' hne
    simp only [verifyMerkleProof, decide_eq_false_iff_not]
    intro hEq
    exact hne (hEq.symm.trans hfold)
  · intro j p' hj hne
    simp only [verifyMerkleProof, decide_eq_false_iff_not]
    intro hEq
    exact foldMerkle_set_ne hash2 d hinj _ j p' _ i hj hne (hEq.trans hfold.symm)

/-- Instance of `merkle_roundtrip` at the injective pair-hash `Nat.pair`
over three leaves, index 2 (the odd-duplication case). -/
theorem merkle_roundtrip_witness :
    verifyMerkleProof Nat.pair ([10, 11, 12].getD 2 0)
      (merkleRootFromLeaves Nat.pair 0 [10, 11, 12])
      (computeMerkleProofFromLeaves Nat.pair 0 [10, 11, 12] 2) 2 = true :=
  (merkle_roundtrip Nat.pair 0 (fun _ _ _ _ h => Nat.pair_eq_pair.mp h)
    [10, 11, 12] 2 (by decide)).1

/-- Claim C8: the off-ledger DLEQ verifier accepts exactly when both group
equations and the recomputed Fiat-Shamir challenge hold (no partial
credit); a proof honestly generated from secret `r` with `s = k + c·r` is
accepted; and a response claiming a different scalar `r' ≠ r` while
reusing the honest `K1, K2, c` is rejected (for a base point with no small
torsion and an invertible challenge). -/
theorem dleq_verifier_correct {ell : Nat} {V : Type} [AddCommGroup V]
    [Module (ZMod ell) V] [DecidableEq V] [DecidableEq (ZMod ell)]
    (Hc : V → V → V → V → V → V → ZMod ell) (k r : ZMod ell) (G A : V) :
    (∀ (prf : DLEQProofData ell V) (R rA : V),
        verifyDLEQProof Hc prf G A R rA = true ↔
          (prf.s • G = prf.K1 + prf.c • R ∧ prf.s • A = prf.K2 + prf.c • rA
            ∧ prf.c = Hc G A R rA prf.K1 prf.K2))
    ∧ verifyDLEQProof Hc (generateDLEQProof Hc k r G A) G A (r • G) (r • A)
        = true
    ∧ (∀ r' : ZMod ell, (∀ a : ZMod ell, a • G = 0 → a = 0) →
        IsUnit (generateDLEQProof Hc k r G A).c → r' ≠ r →
        verifyDLEQProof Hc
          { c := (generateDLEQProof Hc k r G A).c
            s := k + (generateDLEQProof Hc k r G A).c * r'
            K1 := (generateDLEQProof Hc k r G A).K1
            K2 := (generateDLEQProof Hc k r G A).K2 }
          G A (r • G) (r • A) = false) := by
  refine ⟨?_, ?_, ?_⟩
  · intro prf R rA
    simp [verifyDLEQProof, and_assoc]
  · simp [verifyDLEQProof, generateDLEQProof, add_smul, mul_smul]
  · intro r' hfaith hunit hne
    simp only [generateDLEQProof] at hunit ⊢
    have h1 : ¬ ((k + Hc G A (r • G) (r • A) (k • G) (k • A) * r') • G
        = k • G + Hc G A (r • G) (r • A) (k • G) (k • A) • (r • G)) := by
      intro hEq
      set c := Hc G A (r • G) (r • A) (k • G) (k • A) with hc
      rw [add_smul, ← mul_smul] at hEq
      have h3 : (c * r') • G = (c * r) • G := add_left_cancel hEq
      have h4 : (c * r' - c * r) • G = 0 := by
        rw [sub_smul, h3, sub_self]
      have h5 : c * r' - c * r = 0 := hfaith _ h4
      have h6 : c * (r' - r) = 0 := by
        rw [mul_sub]
        exact h5
      have h7 : r' - r = 0 := by
        have := (IsUnit.mul_right_eq_zero hunit).mp h6
        exact this
      exact hne (sub_eq_zero.mp h7)
    simp [verifyDLEQProof, h1]

/-- Instance of `dleq_verifier_correct` over the group `ZMod 5` with base
point `1` and a forged response claiming `r' = 0` against the honest
`r = 2`. -/
theorem dleq_verifier_correct_witness :
    verifyDLEQProof hc5
      { c := (generateDLEQProof hc5 1 2 (1 : ZMod 5) 1).c
        s := 1 + (generateDLEQProof hc5 1 2 (1 : ZMod 5) 1).c * 0
        K1 := (generateDLEQProof hc5 1 2 (1 : ZMod 5) 1).K1
        K2 := (generateDLEQProof hc5 1 2 (1 : ZMod 5) 1).K2 }
      1 1 ((2 : ZMod 5) • 1) ((2 : ZMod 5) • 1) = false :=
  (dleq_verifier_correct hc5 1 2 1 1).2.2 0
    (fun a h => by simpa using h)
    (isUnit_of_mul_eq_one _ 2 (by decide))
    (by decide)

/-- Claim C9 counterexample: the double-and-add loop of `scalarMul` does not
have a scalar-independent structural shape: the operation schedules for the
scalars 1 and 2 already differ (the loop exits as soon as the remaining
scalar is zero). -/
theorem scalarMul_shape_not_constant :
    ¬ (∀ k₁ k₂ : Nat, Ed25519.scalarMulOps k₁ = Ed25519.scalarMulOps k₂) := by
  intro hall
  have h := hall 1 2
  rw [Ed25519.scalarMulOps, Ed25519.scalarMulOps] at h
  norm_num at h
  rw [Ed25519.scalarMulOps, Ed25519.scalarMulOps] at h
  norm_num at h

/-- Claim C9 amended: the schedule of point operations performed by
`scalarMul` is independent of the point and of the group law, but not of
the scalar: the loop runs `while (k > 0)`, performing one doubling per
iteration and one addition per set low bit, so its length is the bit
length `log2 k + 1` of the scalar; scalars 1 and 2 already have different
schedules. -/
theorem scalarMul_shape_depends_on_scalar :
    (∀ (padd : Nat × Nat → Nat × Nat → Nat × Nat) (k : Nat) (r p : Nat × Nat),
        (Ed25519.scalarMulTraced padd k r p).2 = Ed25519.scalarMulOps k)
    ∧ (∀ k : Nat, 1 ≤ k →
        (Ed25519.scalarMulOps k).length = Nat.log2 k + 1)
    ∧ Ed25519.scalarMulOps 1 ≠ Ed25519.scalarMulOps 2 := by
  refine ⟨?_, ?_, ?_⟩
  · intro padd k
    induction k using Nat.strong_induction_on with
    | _ k ih =>
      intro r p
      rw [Ed25519.scalarMulTraced, Ed25519.scalarMulOps]
      by_cases h : k = 0
      · simp [h]
      · simp only [h, dite_false]
        exact congrArg _ (ih (k / 2)
          (Nat.div_lt_self (Nat.pos_of_ne_zero h) one_lt_two) _ _)
  · intro k
    induction k using Nat.strong_induction_on with
    | _ k ih =>
      intro hk
      rw [Ed25519.scalarMulOps, dif_neg (by omega : ¬ k = 0)]
      simp only [List.length_cons]
      by_cases h2 : k = 1
      · subst h2
        rw [Ed25519.scalarMulOps]
        simp [Nat.log2]
      · have hml := ih (k / 2) (by omega) (by omega)
        rw [hml]
        have hlog : Nat.log2 k = Nat.log2 (k / 2) + 1 := by
          rw [Nat.log2]
          simp [show 2 ≤ k by omega]
        omega
  · intro h
    rw [Ed25519.scalarMulOps, Ed25519.scalarMulOps] at h
    norm_num at h
    rw [Ed25519.scalarMulOps, Ed25519.scalarMulOps] at h
    norm_num at h

/-- Instance of `scalarMul_shape_depends_on_scalar` at the scalar 5. -/
theorem scalarMul_shape_depends_on_scalar_witness :
    (Ed25519.scalarMulOps 5).length = Nat.log2 5 + 1 :=
  scalarMul_shape_depends_on_scalar.2.1 5 (by decide)

/-! ## Inversion lemmas for the contract entry points

Each lemma characterises the committed state of a successful call (and the
guards that must have held); a reverted call returns `.error` and commits
nothing by construction. -/

theorem registerLP_ok_elim {ctx : Ctx} {s : State} {a b : Nat} {m : String}
    {act : Bool} {s' : State} (h : registerLP ctx s a b m act = .ok s') :
    s' = { s with lpInfo := setMap s.lpInfo ctx.msgSender { s.lpInfo ctx.msgSender with
          mintFeeBps := a
          burnFeeBps := b
          moneroAddress := m
          active := act } } := by
  unfold registerLP at h
  simp only [require_ok_iff, Except.ok.injEq] at h
  exact h.2.2.2.symm

theorem lpDeposit_ok_elim {env : Env} {ctx : Ctx} {s s' : State}
    (h : lpDeposit env ctx s = .ok s') :
    0 < ctx.msgValue ∧
    s' = { s with
      lpInfo := setMap s.lpInfo ctx.msgSender { s.lpInfo ctx.msgSender with
        collateralAmount := (s.lpInfo ctx.msgSender).collateralAmount
          + env.wrapEthToWst ctx.msgValue }
      totalLPCollateral :=
        s.totalLPCollateral + env.wrapEthToWst ctx.msgValue } := by
  unfold lpDeposit at h
  simp only [require_ok_iff, Except.ok.injEq] at h
  exact ⟨h.1, h.2.symm⟩

theorem lpDepositWstETH_ok_elim {ctx : Ctx} {s : State} {amt : Nat}
    {s' : State} (h : lpDepositWstETH ctx s amt = .ok s') :
    0 < amt ∧
    s' = { s with
      lpInfo := setMap s.lpInfo ctx.msgSender { s.lpInfo ctx.msgSender with
        collateralAmount := (s.lpInfo ctx.msgSender).collateralAmount + amt }
      totalLPCollateral := s.totalLPCollateral + amt } := by
  unfold lpDepositWstETH at h
  simp only [require_ok_iff, Except.ok.injEq] at h
  exact ⟨h.1, h.2.symm⟩

theorem lpWithdraw_ok_elim {env : Env} {ctx : Ctx} {s : State} {amt : Nat}
    {s' : State} (h : lpWithdraw env ctx s amt = .ok s') :
    amt ≤ (s.lpInfo ctx.msgSender).collateralAmount
    ∧ amt ≤ s.totalLPCollateral
    ∧ s' = { s with
        lpInfo := setMap s.lpInfo ctx.msgSender { s.lpInfo ctx.msgSender with
          collateralAmount := (s.lpInfo ctx.msgSender).collateralAmount - amt }
        totalLPCollateral := s.totalLPCollateral - amt } := by
  unfold lpWithdraw at h
  simp only [require_ok_iff, bindE_ok_iff, ssub_ok_iff, sdiv_ok_iff,
    xmrToETH, Except.ok.injEq] at h
  obtain ⟨h1, a, ⟨hne, ha⟩, u, hu, nt, ⟨h2, hnt⟩, hs⟩ := h
  subst hnt
  exact ⟨h1, h2, hs.symm⟩

theorem liquidateLP_ok_elim {env : Env} {ctx : Ctx} {s : State} {lp : Nat}
    {s' : State} (h : liquidateLP env ctx s lp = .ok s') :
    0 < ctx.msgValue ∧ 0 < (s.lpInfo lp).backedAmount ∧
    s' = (let w := env.wrapEthToWst ctx.msgValue
      let m1 := setMap s.lpInfo lp { s.lpInfo lp with
        collateralAmount := (s.lpInfo lp).collateralAmount + w }
      { s with
        lpInfo := setMap m1 ctx.msgSender { m1 ctx.msgSender with
          collateralAmount := (m1 ctx.msgSender).collateralAmount + w }
        totalLPCollateral := s.totalLPCollateral + w }) := by
  unfold liquidateLP at h
  simp only [require_ok_iff, bindE_ok_iff, sdiv_ok_iff, xmrToETH,
    Except.ok.injEq] at h
  obtain ⟨h1, h2, bv, ⟨hne, hbv⟩, ratio, ⟨hr0, hr⟩, h3, h4, hs⟩ := h
  exact ⟨h1, h2, hs.symm⟩

theorem createMintIntent_ok_elim {env : Env} {ctx : Ctx} {s : State}
    {lp amt : Nat} {r : IntentId × State}
    (h : createMintIntent env ctx s lp amt = .ok r) :
    r.2 = { s with mintIntents := setMap s.mintIntents ⟨ctx.msgSender, lp, amt, ctx.timestamp⟩ { user := ctx.msgSender, lp := lp, expectedAmount := amt, depositAmount := ctx.msgValue, createdAt := ctx.timestamp, fulfilled := false, cancelled := false } } := by
  unfold createMintIntent at h
  simp only [require_ok_iff, bindE_ok_iff, sdiv_ok_iff, xmrToETH, ethToXmr,
    Except.ok.injEq] at h
  obtain ⟨h1, h2, cur, ⟨hc0, hc⟩, cap, ⟨hx0, hx⟩, h3, h4, hs⟩ := h
  rw [← hs]

theorem cancelMintIntent_ok_elim {ctx : Ctx} {s : State} {intentId : IntentId}
    {s' : State} (h : cancelMintIntent ctx s intentId = .ok s') :
    s' = { s with mintIntents := setMap s.mintIntents intentId { s.mintIntents intentId with cancelled := true } } := by
  unfold cancelMintIntent at h
  simp only [require_ok_iff, Except.ok.injEq] at h
  exact h.2.2.2.2.symm

theorem mint_ok_elim {ctx : Ctx} {s : State} {args : MintArgs} {s' : State}
    (h : mint ctx s args = .ok s') :
    (s.lpInfo args.lp).active = true
    ∧ (s.moneroBlocks args.blockHeight).exists_ = true
    ∧ s.usedOutputs (outputIdOf args.output) = false
    ∧ s'.usedOutputs = setMap s.usedOutputs (outputIdOf args.output) true
    ∧ s'.burnRequests = s.burnRequests
    ∧ s'.nextBurnId = s.nextBurnId
    ∧ s'.mintIntents = s.mintIntents
    ∧ s'.lpInfo = setMap s.lpInfo args.lp { s.lpInfo args.lp with
        backedAmount := (s.lpInfo args.lp).backedAmount
          + args.publicSignals.getD 0 0 } := by
  unfold mint at h
  simp only [require_ok_iff, bindE_ok_iff, ssub_ok_iff, Except.ok.injEq] at h
  obtain ⟨h1, h2, h3, na, ⟨hfee, hna⟩, hs⟩ := h
  subst hs
  refine ⟨h1, h2, h3, ?_, ?_, ?_, ?_, ?_⟩ <;> (unfold erc20Mint; split <;> rfl)

theorem requestBurn_ok_elim {env : Env} {ctx : Ctx} {s : State} {amt : Nat}
    {xaddr : String} {lp : Nat} {s' : State}
    (h : requestBurn env ctx s amt xaddr lp = .ok s') :
    ∃ xv, xmrToETH s amt = .ok xv ∧
      amt ≤ s.balances ctx.msgSender
      ∧ amt ≤ (s.lpInfo lp).backedAmount
      ∧ env.getWstETHByStETH (xv * SAFE_RATIO / 100) ≤ (s.lpInfo lp).collateralAmount
      ∧ env.getWstETHByStETH (xv * SAFE_RATIO / 100) ≤ s.totalLPCollateral
      ∧ s' = { s with
          balances := setMap s.balances ctx.msgSender
            (s.balances ctx.msgSender - amt)
          totalSupply := s.totalSupply - amt
          lpInfo := setMap s.lpInfo lp { s.lpInfo lp with
            collateralAmount := (s.lpInfo lp).collateralAmount
              - env.getWstETHByStETH (xv * SAFE_RATIO / 100)
            backedAmount := (s.lpInfo lp).backedAmount - amt }
          totalLPCollateral := s.totalLPCollateral
            - env.getWstETHByStETH (xv * SAFE_RATIO / 100)
          nextBurnId := s.nextBurnId + 1
          burnRequests := setMap s.burnRequests s.nextBurnId { user := ctx.msgSender, lp := lp, amount := amt, depositAmount := ctx.msgValue, xmrAddress := xaddr, requestTime := ctx.timestamp, collateralLocked := env.getWstETHByStETH (xv * SAFE_RATIO / 100), fulfilled := false, defaulted := false } } := by
  unfold requestBurn erc20Burn at h
  simp only [require_ok_iff, bindE_ok_iff, ssub_ok_iff, sdiv_ok_iff,
    xmrToETH, Except.ok.injEq] at h
  obtain ⟨h1, h2, h3, xv, ⟨hne, hxv⟩, h4, s1, ⟨hb, hs1⟩, nt, ⟨hnt1, hnt⟩, hs⟩ := h
  refine ⟨xv, ?_, h1, h3, h4, ?_, ?_⟩
  · unfold xmrToETH
    rw [sdiv_ok_iff]
    exact ⟨hne, hxv⟩
  · subst hs1
    exact hnt1
  · subst hs1
    subst hnt
    exact hs.symm

theorem fulfillBurn_ok_elim {ctx : Ctx} {s : State} {burnId tx : Nat}
    {s' : State} (h : fulfillBurn ctx s burnId tx = .ok s') :
    ctx.msgSender = (s.burnRequests burnId).lp
    ∧ (s.burnRequests burnId).fulfilled = false
    ∧ (s.burnRequests burnId).defaulted = false
    ∧ ctx.timestamp ≤ (s.burnRequests burnId).requestTime + BURN_TIMEOUT
    ∧ s' = { s with
        burnRequests := setMap s.burnRequests burnId { s.burnRequests burnId with fulfilled := true }
        lpInfo := setMap s.lpInfo (s.burnRequests burnId).lp { s.lpInfo (s.burnRequests burnId).lp with
            collateralAmount :=
              (s.lpInfo (s.burnRequests burnId).lp).collateralAmount
                + (s.burnRequests burnId).collateralLocked }
        totalLPCollateral := s.totalLPCollateral
          + (s.burnRequests burnId).collateralLocked } := by
  unfold fulfillBurn at h
  simp only [require_ok_iff, Except.ok.injEq] at h
  obtain ⟨h1, ⟨h2, h3⟩, h4, hs⟩ := h
  exact ⟨h1, h2, h3, h4, hs.symm⟩

theorem claimDefault_ok_elim {ctx : Ctx} {s : State} {burnId : Nat}
    {s' : State} (h : claimDefault ctx s burnId = .ok s') :
    ctx.msgSender = (s.burnRequests burnId).user
    ∧ (s.burnRequests burnId).fulfilled = false
    ∧ (s.burnRequests burnId).defaulted = false
    ∧ (s.burnRequests burnId).requestTime + BURN_TIMEOUT < ctx.timestamp
    ∧ s' = { s with burnRequests := setMap s.burnRequests burnId { s.burnRequests burnId with defaulted := true } } := by
  unfold claimDefault at h
  simp only [require_ok_iff, Except.ok.injEq] at h
  obtain ⟨h1, ⟨h2, h3⟩, h4, hs⟩ := h
  exact ⟨h1, h2, h3, h4, hs.symm⟩

theorem postMoneroBlock_ok_elim {ctx : Ctx} {s : State} {bh bhash tr orr : Nat}
    {s' : State} (h : postMoneroBlock ctx s bh bhash tr orr = .ok s') :
    s' = { s with
      moneroBlocks := setMap s.moneroBlocks bh { blockHash := bhash, txMerkleRoot := tr, outputMerkleRoot := orr, timestamp := ctx.timestamp, exists_ := true }
      latestMoneroBlock := bh } := by
  unfold postMoneroBlock at h
  simp only [require_ok_iff, Except.ok.injEq] at h
  exact h.2.2.2.symm

theorem transferOracle_ok_elim {ctx : Ctx} {s : State} {newOracle : Nat}
    {s' : State} (h : transferOracle ctx s newOracle = .ok s') :
    s' = { s with oracle := newOracle } := by
  unfold transferOracle at h
  simp only [require_ok_iff, Except.ok.injEq] at h
  exact h.2.symm

theorem updatePrices_ok_elim {ctx : Ctx} {s : State} {x e : Nat} {s' : State}
    (h : updatePrices ctx s x e = .ok s') :
    s' = { s with
      xmrUsdPrice := if s.xmrUsdPrice = 0 then x
                     else (s.xmrUsdPrice * 9 + x) / 10
      ethUsdPrice := if s.ethUsdPrice = 0 then e
                     else (s.ethUsdPrice * 9 + e) / 10
      lastPriceUpdate := ctx.timestamp } := by
  unfold updatePrices at h
  simp only [require_ok_iff, Except.ok.injEq] at h
  exact h.2.symm

theorem erc20Transfer_ok_elim {ctx : Ctx} {s : State} {dst amt : Nat}
    {s' : State} (h : erc20Transfer ctx s dst amt = .ok s') :
    s' = { s with balances :=
        (let b1 := setMap s.balances ctx.msgSender (s.balances ctx.msgSender - amt)
         setMap b1 dst (b1 dst + amt)) } := by
  unfold erc20Transfer at h
  simp only [require_ok_iff, Except.ok.injEq] at h
  exact h.2.symm

/-- No call ever removes a nullifier: across every entry point, a spent
output stays spent. -/
theorem step_usedOutputs_mono {env : Env} {ctx : Ctx} {s : State} {c : Call}
    {s' : State} (h : step env ctx s c = .ok s') :
    ∀ oid, s.usedOutputs oid = true → s'.usedOutputs oid = true := by
  intro oid ho
  cases c with
  | registerLP a b m act =>
    rw [registerLP_ok_elim h]
    exact ho
  | lpDeposit =>
    rw [(lpDeposit_ok_elim h).2]
    exact ho
  | lpDepositWstETH amount =>
    rw [(lpDepositWstETH_ok_elim h).2]
    exact ho
  | lpWithdraw amount =>
    rw [(lpWithdraw_ok_elim h).2.2]
    exact ho
  | liquidateLP lp =>
    rw [(liquidateLP_ok_elim h).2.2]
    exact ho
  | createMintIntent lp amt =>
    simp only [step, bindE_ok_iff] at h
    obtain ⟨r, hr, hs⟩ := h
    injection hs with hs
    rw [← hs, createMintIntent_ok_elim hr]
    exact ho
  | cancelMintIntent intentId =>
    rw [cancelMintIntent_ok_elim h]
    exact ho
  | mint args =>
    replace h : mint ctx s args = .ok s' := h
    rw [(mint_ok_elim h).2.2.2.1]
    by_cases he : oid = outputIdOf args.output
    · simp [setMap, he]
    · simp [setMap, he]
      exact ho
  | requestBurn amount addr lp =>
    replace h : requestBurn env ctx s amount addr lp = .ok s' := h
    obtain ⟨xv, hxv, hrest⟩ := requestBurn_ok_elim h
    rw [hrest.2.2.2.2]
    exact ho
  | fulfillBurn burnId tx =>
    replace h : fulfillBurn ctx s burnId tx = .ok s' := h
    rw [(fulfillBurn_ok_elim h).2.2.2.2]
    exact ho
  | claimDefault burnId =>
    replace h : claimDefault ctx s burnId = .ok s' := h
    rw [(claimDefault_ok_elim h).2.2.2.2]
    exact ho
  | postMoneroBlock bh bhash tr orr =>
    rw [postMoneroBlock_ok_elim h]
    exact ho
  | transferOracle newOracle =>
    rw [transferOracle_ok_elim h]
    exact ho
  | updatePythPrice x e =>
    rw [updatePrices_ok_elim h]
    exact ho
  | erc20Transfer dst amount =>
    rw [erc20Transfer_ok_elim h]
    exact ho

/-- No call ever clears a burn request's terminal flags, and the burn-id
counter never decreases: for every request id already allocated, `fulfilled`
and `defaulted` are monotone across every entry point. -/
theorem step_burnRequests_mono {env : Env} {ctx : Ctx} {s : State} {c : Call}
    {s' : State} (h : step env ctx s c = .ok s') :
    s.nextBurnId ≤ s'.nextBurnId
    ∧ ∀ id, id < s.nextBurnId →
        ((s.burnRequests id).fulfilled = true →
          (s'.burnRequests id).fulfilled = true)
        ∧ ((s.burnRequests id).defaulted = true →
          (s'.burnRequests id).defaulted = true) := by
  cases c with
  | registerLP a b m act =>
    rw [registerLP_ok_elim h]
    exact ⟨le_rfl, fun id _ => ⟨fun x => x, fun x => x⟩⟩
  | lpDeposit =>
    rw [(lpDeposit_ok_elim h).2]
    exact ⟨le_rfl, fun id _ => ⟨fun x => x, fun x => x⟩⟩
  | lpDepositWstETH amount =>
    rw [(lpDepositWstETH_ok_elim h).2]
    exact ⟨le_rfl, fun id _ => ⟨fun x => x, fun x => x⟩⟩
  | lpWithdraw amount =>
    rw [(lpWithdraw_ok_elim h).2.2]
    exact ⟨le_rfl, fun id _ => ⟨fun x => x, fun x => x⟩⟩
  | liquidateLP lp =>
    rw [(liquidateLP_ok_elim h).2.2]
    exact ⟨le_rfl, fun id _ => ⟨fun x => x, fun x => x⟩⟩
  | createMintIntent lp amt =>
    simp only [step, bindE_ok_iff] at h
    obtain ⟨r, hr, hs⟩ := h
    injection hs with hs
    rw [← hs, createMintIntent_ok_elim hr]
    exact ⟨le_rfl, fun id _ => ⟨fun x => x, fun x => x⟩⟩
  | cancelMintIntent intentId =>
    rw [cancelMintIntent_ok_elim h]
    exact ⟨le_rfl, fun id _ => ⟨fun x => x, fun x => x⟩⟩
  | mint args =>
    replace h : mint ctx s args = .ok s' := h
    obtain ⟨_, _, _, _, hbr, hnext, _, _⟩ := mint_ok_elim h
    rw [hbr, hnext]
    exact ⟨le_rfl, fun id _ => ⟨fun x => x, fun x => x⟩⟩
  | requestBurn amount addr lp =>
    replace h : requestBurn env ctx s amount addr lp = .ok s' := h
    obtain ⟨xv, hxv, hrest⟩ := requestBurn_ok_elim h
    rw [hrest.2.2.2.2]
    refine ⟨by simp, fun id hid => ?_⟩
    have hne : id ≠ s.nextBurnId := by omega
    simp only [setMap_other _ _ _ _ hne]
    exact ⟨fun x => x, fun x => x⟩
  | fulfillBurn burnId tx =>
    replace h : fulfillBurn ctx s burnId tx = .ok s' := h
    rw [(fulfillBurn_ok_elim h).2.2.2.2]
    refine ⟨le_rfl, fun id hid => ?_⟩
    by_cases he : id = burnId
    · subst he
      simp [setMap_same]
    · simp only [setMap_other _ _ _ _ he]
      exact ⟨fun x => x, fun x => x⟩
  | claimDefault burnId =>
    replace h : claimDefault ctx s burnId = .ok s' := h
    rw [(claimDefault_ok_elim h).2.2.2.2]
    refine ⟨le_rfl, fun id hid => ?_⟩
    by_cases he : id = burnId
    · subst he
      simp [setMap_same]
    · simp only [setMap_other _ _ _ _ he]
      exact ⟨fun x => x, fun x => x⟩
  | postMoneroBlock bh bhash tr orr =>
    rw [postMoneroBlock_ok_elim h]
    exact ⟨le_rfl, fun id _ => ⟨fun x => x, fun x => x⟩⟩
  | transferOracle newOracle =>
    rw [transferOracle_ok_elim h]
    exact ⟨le_rfl, fun id _ => ⟨fun x => x, fun x => x⟩⟩
  | updatePythPrice x e =>
    rw [updatePrices_ok_elim h]
    exact ⟨le_rfl, fun id _ => ⟨fun x => x, fun x => x⟩⟩
  | erc20Transfer dst amount =>
    rw [erc20Transfer_ok_elim h]
    exact ⟨le_rfl, fun id _ => ⟨fun x => x, fun x => x⟩⟩

/-- Claim C1: contradicted by the code (`code_bug`): `mint` as committed
performs none of the four proof-component checks and no minimum-amount
check. Here every proof component of the call is invalid — the empty
Merkle path cannot reach the posted root under any pair-hash (keccak
included), the DLEQ attestation has `c = s = 0` and is rejected by the
contract's own `verifyDLEQ`, and the all-zero curve points fail
`Ed25519.isOnCurve` — yet the mint succeeds and mutates LP state and
balances. The source marks the omission "TEMP: Skip ALL verification";
the README calls full verification "temporarily disabled for MVP". -/
theorem mint_skips_proof_verification :
    (∀ hash2 : Nat → Nat → Nat,
        verifyMerkleProof hash2 badMintArgs.output.txHash
          (mintState.moneroBlocks badMintArgs.blockHeight).txMerkleRoot
          badMintArgs.txMerkleProof badMintArgs.txIndex = false)
    ∧ verifyDLEQ badMintArgs.dleqProof = .error "Invalid DLEQ"
    ∧ Ed25519.isOnCurve badMintArgs.ed25519Proof.R_x
        badMintArgs.ed25519Proof.R_y = false
    ∧ (∃ s', mint anyCtx mintState badMintArgs = .ok s'
        ∧ s'.usedOutputs ⟨7, 0⟩ = true
        ∧ (s'.lpInfo 2).backedAmount = 5 * 10 ^ 12
        ∧ s'.balances 3 = 495 * 10 ^ 10
        ∧ s'.balances 2 = 5 * 10 ^ 10) :=
  ⟨fun _ => rfl, rfl, rfl, ⟨_, rfl, rfl, rfl, rfl, rfl⟩⟩

/-- Claim C2: nullifier uniqueness: a successful mint requires the
`(txHash, outputIndex)` nullifier absent and marks it present; with the
nullifier present no mint on it can succeed, and when the earlier guards
(active LP, posted block) pass it fails precisely with the replay error
`"Output spent"`, committing nothing; no entry point ever clears a
nullifier. -/
theorem nullifier_inserted_once :
    (∀ ctx s args s', mint ctx s args = .ok s' →
        s.usedOutputs (outputIdOf args.output) = false
        ∧ s'.usedOutputs (outputIdOf args.output) = true)
    ∧ (∀ ctx s args s', s.usedOutputs (outputIdOf args.output) = true →
        mint ctx s args ≠ .ok s')
    ∧ (∀ ctx s args, (s.lpInfo args.lp).active = true →
        (s.moneroBlocks args.blockHeight).exists_ = true →
        s.usedOutputs (outputIdOf args.output) = true →
        mint ctx s args = .error "Output spent")
    ∧ (∀ env ctx s c s', step env ctx s c = .ok s' →
        ∀ oid, s.usedOutputs oid = true → s'.usedOutputs oid = true) := by
  refine ⟨?_, ?_, ?_, ?_⟩
  · intro ctx s args s' h
    obtain ⟨_, _, h3, h4, _⟩ := mint_ok_elim h
    refine ⟨h3, ?_⟩
    rw [h4]
    simp [setMap_same]
  · intro ctx s args s' hused h
    have hfresh := (mint_ok_elim h).2.2.1
    rw [hused] at hfresh
    simp at hfresh
  · intro ctx s args h1 h2 hused
    simp only [mint]
    rw [require_pos h1, require_pos h2]
    exact require_not (by simp [hused])
  · intro env ctx s c s' h
    exact step_usedOutputs_mono h

/-- Replay instance: the spent output `(7, 0)` is rejected with the exact
replay error. -/
theorem nullifier_inserted_once_witness :
    mint anyCtx usedState badMintArgs = .error "Output spent" :=
  nullifier_inserted_once.2.2.1 anyCtx usedState badMintArgs rfl rfl rfl

/-- Claim C3: contradicted by the code (`code_bug`): the collateral check of
`mint` is commented out ("TEMP: Skip collateral check"), so an LP whose
collateral ratio is 100%, far below `SAFE_RATIO`, still has its
`backedAmount` increased by a successful mint. -/
theorem mint_ignores_collateral_ratio :
    getLPRatio idEnv underState 2 = .ok 100
    ∧ 100 < SAFE_RATIO
    ∧ (∃ s', mint anyCtx underState mintArgsC3 = .ok s'
        ∧ (s'.lpInfo 2).backedAmount = 2 * 10 ^ 12) :=
  ⟨rfl, by norm_num [ SAFE_RATIO], ⟨_, rfl, rfl⟩⟩

/-- Claim C4: burn-request lifecycle: `fulfillBurn` succeeds only for the
named LP, before the timeout, from the pending state, and commits
`Fulfilled` (not `Defaulted`); `claimDefault` succeeds only for the
requester, after the timeout, from the pending state, and commits
`Defaulted`; from either terminal state both transitions revert (with
`"Already processed"` once the caller guard passes), and no entry point
ever clears a terminal flag. -/
theorem burn_terminal_states :
    (∀ ctx s id tx s', fulfillBurn ctx s id tx = .ok s' →
        ctx.msgSender = (s.burnRequests id).lp
        ∧ (s.burnRequests id).fulfilled = false
        ∧ (s.burnRequests id).defaulted = false
        ∧ ctx.timestamp ≤ (s.burnRequests id).requestTime + BURN_TIMEOUT
        ∧ (s'.burnRequests id).fulfilled = true
        ∧ (s'.burnRequests id).defaulted = false)
    ∧ (∀ ctx s id s', claimDefault ctx s id = .ok s' →
        ctx.msgSender = (s.burnRequests id).user
        ∧ (s.burnRequests id).fulfilled = false
        ∧ (s.burnRequests id).defaulted = false
        ∧ (s.burnRequests id).requestTime + BURN_TIMEOUT < ctx.timestamp
        ∧ (s'.burnRequests id).defaulted = true
        ∧ (s'.burnRequests id).fulfilled = false)
    ∧ (∀ ctx s id tx s',
        ((s.burnRequests id).fulfilled = true
          ∨ (s.burnRequests id).defaulted = true) →
        fulfillBurn ctx s id tx ≠ .ok s' ∧ claimDefault ctx s id ≠ .ok s')
    ∧ (∀ ctx s id tx,
        ((s.burnRequests id).fulfilled = true
          ∨ (s.burnRequests id).defaulted = true) →
        ctx.msgSender = (s.burnRequests id).lp →
        fulfillBurn ctx s id tx = .error "Already processed")
    ∧ (∀ ctx s id,
        ((s.burnRequests id).fulfilled = true
          ∨ (s.burnRequests id).defaulted = true) →
        ctx.msgSender = (s.burnRequests id).user →
        claimDefault ctx s id = .error "Already processed")
    ∧ (∀ env ctx s c s', step env ctx s c = .ok s' →
        s.nextBurnId ≤ s'.nextBurnId
        ∧ ∀ id, id < s.nextBurnId →
            ((s.burnRequests id).fulfilled = true →
              (s'.burnRequests id).fulfilled = true)
            ∧ ((s.burnRequests id).defaulted = true →
              (s'.burnRequests id).defaulted = true)) := by
  refine ⟨?_, ?_, ?_, ?_, ?_, ?_⟩
  · intro ctx s id tx s' h
    obtain ⟨h1, h2, h3, h4, hs⟩ := fulfillBurn_ok_elim h
    refine ⟨h1, h2, h3, h4, ?_, ?_⟩ <;>
      (rw [hs]; simp [setMap_same, h3])
  · intro ctx s id s' h
    obtain ⟨h1, h2, h3, h4, hs⟩ := claimDefault_ok_elim h
    refine ⟨h1, h2, h3, h4, ?_, ?_⟩ <;>
      (rw [hs]; simp [setMap_same, h2])
  · intro ctx s id tx s' hterm
    constructor
    · intro h
      obtain ⟨_, h2, h3, _⟩ := fulfillBurn_ok_elim h
      rcases hterm with ht | ht <;> simp_all
    · intro h
      obtain ⟨_, h2, h3, _⟩ := claimDefault_ok_elim h
      rcases hterm with ht | ht <;> simp_all
  · intro ctx s id tx hterm hlp
    simp only [fulfillBurn]
    rw [require_pos hlp]
    refine require_not ?_
    rcases hterm with ht | ht <;> simp [ht]
  · intro ctx s id hterm huser
    simp only [claimDefault]
    rw [require_pos huser]
    refine require_not ?_
    rcases hterm with ht | ht <;> simp [ht]
  · intro env ctx s c s' h
    exact step_burnRequests_mono h

/-- Double-terminal instance: re-fulfilling the already fulfilled request 0
fails with the idempotency-guard error. -/
theorem burn_terminal_states_witness :
    fulfillBurn lpCtx doneBurnState 0 99 = .error "Already processed" :=
  burn_terminal_states.2.2.2.1 lpCtx doneBurnState 0 99 (Or.inl rfl) rfl

/-- Claim C5 counterexample: `createMintIntent` does not reject intents
exceeding the LP's available capacity: with 10 ETH of collateral (capacity
`10·100/150 ≈ 6.67` XMR at the 150% floor) the 7-XMR intent, whose backing
at `SAFE_RATIO` would exceed the whole collateral, is accepted exactly like
the 6-XMR one. The only amount check in the code is the Sybil-defense
lower bound. -/
theorem createMintIntent_accepts_overcapacity :
    isOkE (createMintIntent idEnv capCtx capState 2 (7 * 10 ^ 12)) = true
    ∧ isOkE (createMintIntent idEnv capCtx capState 2 (6 * 10 ^ 12)) = true
    ∧ 10 * 10 ^ 18 * 100 / SAFE_RATIO < 7 * 10 ^ 12 * 10 ^ 6 :=
  ⟨rfl, rfl, by decide⟩

/-- Claim C5 amended: `createMintIntent` enforces only a lower bound on the
expected amount: an intent below `MIN_MINT_BPS` (1%) of the LP's available
capacity at the 150% floor is rejected before any proof is evaluated, and
every intent at or above that minimum (however far above the capacity) is
accepted whenever the id slot is free. -/
theorem createMintIntent_lower_bound_only
    (env : Env) (ctx : Ctx) (s : State) (lp amt cap : Nat)
    (hact : (s.lpInfo lp).active = true)
    (hdep : MIN_INTENT_DEPOSIT ≤ ctx.msgValue)
    (hcap : bindE (xmrToETH s (s.lpInfo lp).backedAmount) (fun cur =>
        ethToXmr s
          (if cur < env.getStETHByWstETH (s.lpInfo lp).collateralAmount * 100
              / SAFE_RATIO
           then env.getStETHByWstETH (s.lpInfo lp).collateralAmount * 100
              / SAFE_RATIO - cur
           else 0)) = .ok cap) :
    (amt < cap * MIN_MINT_BPS / 10000 →
        createMintIntent env ctx s lp amt
          = .error "Amount below minimum (1% of LP capacity)")
    ∧ (cap * MIN_MINT_BPS / 10000 ≤ amt →
        (s.mintIntents ⟨ctx.msgSender, lp, amt, ctx.timestamp⟩).user = 0 →
        isOkE (createMintIntent env ctx s lp amt) = true) := by
  rcases hx : xmrToETH s (s.lpInfo lp).backedAmount with e | cur
  · rw [hx] at hcap
    exact absurd hcap (by simp [bindE])
  · rw [hx, bindE_ok_left] at hcap
    constructor
    · intro hlt
      simp only [createMintIntent]
      rw [require_pos hact, require_pos hdep, hx, bindE_ok_left, hcap,
        bindE_ok_left]
      exact require_not (by omega)
    · intro hge huser
      simp only [createMintIntent]
      rw [require_pos hact, require_pos hdep, hx, bindE_ok_left, hcap,
        bindE_ok_left, require_pos hge, require_pos huser]
      rfl

/-- Acceptance instance of the amended claim: the over-capacity 7-XMR
intent clears the 1%-of-capacity minimum and is accepted. -/
theorem createMintIntent_lower_bound_only_witness :
    isOkE (createMintIntent idEnv capCtx capState 2 (7 * 10 ^ 12)) = true :=
  (createMintIntent_lower_bound_only idEnv capCtx capState 2 (7 * 10 ^ 12)
      6666666666666 (by decide) (by decide) (by rfl)).2 (by decide) (by rfl)

/-- Claim C6 counterexample: an LP at ratio 100%, below the 120% liquidation
threshold, cannot be recovered through `liquidateLP`: the call with
positive ETH value reverts with `"Below liquidation threshold"` instead of
succeeding. -/
theorem liquidateLP_rejects_below_threshold :
    getLPRatio idEnv underState 2 = .ok 100
    ∧ 100 < LIQUIDATION_THRESHOLD
    ∧ 0 < liqCtx.msgValue
    ∧ liquidateLP idEnv liqCtx underState 2
        = .error "Below liquidation threshold" :=
  ⟨rfl, by decide, by decide, rfl⟩

/-- Claim C6 amended: the collateral top-up path `liquidateLP` is open to
any third-party account exactly in the risk band: with positive ETH value
and a positive backed position, the call succeeds if and only if the LP's
ratio lies in `[LIQUIDATION_THRESHOLD, SAFE_RATIO)`; strictly below the
liquidation threshold it reverts with `"Below liquidation threshold"` (no
recovery through this path), and at or above `SAFE_RATIO` it reverts with
`"LP not in risk mode"`. -/
theorem liquidateLP_risk_band_only
    (env : Env) (ctx : Ctx) (s : State) (lp bv : Nat)
    (hbv : xmrToETH s (s.lpInfo lp).backedAmount = .ok bv)
    (hbv0 : bv ≠ 0)
    (hval : 0 < ctx.msgValue)
    (hpos : 0 < (s.lpInfo lp).backedAmount) :
    (isOkE (liquidateLP env ctx s lp) = true ↔
      (LIQUIDATION_THRESHOLD
          ≤ env.getStETHByWstETH (s.lpInfo lp).collateralAmount * 100 / bv
        ∧ env.getStETHByWstETH (s.lpInfo lp).collateralAmount * 100 / bv
          < SAFE_RATIO))
    ∧ (env.getStETHByWstETH (s.lpInfo lp).collateralAmount * 100 / bv
        < LIQUIDATION_THRESHOLD →
      liquidateLP env ctx s lp = .error "Below liquidation threshold")
    ∧ ( SAFE_RATIO
        ≤ env.getStETHByWstETH (s.lpInfo lp).collateralAmount * 100 / bv →
      liquidateLP env ctx s lp = .error "LP not in risk mode") := by
  refine ⟨⟨?_, ?_⟩, ?_, ?_⟩
  · intro hok
    by_cases h2 : env.getStETHByWstETH (s.lpInfo lp).collateralAmount * 100 / bv
        < SAFE_RATIO
    · by_cases h1 : LIQUIDATION_THRESHOLD
          ≤ env.getStETHByWstETH (s.lpInfo lp).collateralAmount * 100 / bv
      · exact ⟨h1, h2⟩
      · exfalso
        simp only [liquidateLP] at hok
        rw [require_pos hval, require_pos hpos, hbv, bindE_ok_left] at hok
        simp only [sdiv] at hok
        rw [if_neg hbv0, bindE_ok_left, require_pos h2, require_not h1] at hok
        simp [isOkE] at hok
    · exfalso
      simp only [liquidateLP] at hok
      rw [require_pos hval, require_pos hpos, hbv, bindE_ok_left] at hok
      simp only [sdiv] at hok
      rw [if_neg hbv0, bindE_ok_left, require_not h2] at hok
      simp [isOkE] at hok
  · rintro ⟨h1, h2⟩
    simp only [liquidateLP]
    rw [require_pos hval, require_pos hpos, hbv, bindE_ok_left]
    simp only [sdiv]
    rw [if_neg hbv0, bindE_ok_left, require_pos h2, require_pos h1]
    rfl
  · intro hlt
    simp only [liquidateLP]
    rw [require_pos hval, require_pos hpos, hbv, bindE_ok_left]
    simp only [sdiv]
    rw [if_neg hbv0, bindE_ok_left]
    have hsafe : env.getStETHByWstETH (s.lpInfo lp).collateralAmount * 100 / bv
        < SAFE_RATIO := by
      have hlts : LIQUIDATION_THRESHOLD < SAFE_RATIO := by decide
      omega
    rw [require_pos hsafe]
    exact require_not (by omega)
  · intro hge
    simp only [liquidateLP]
    rw [require_pos hval, require_pos hpos, hbv, bindE_ok_left]
    simp only [sdiv]
    rw [if_neg hbv0, bindE_ok_left]
    exact require_not (by omega)

/-- Risk-band instance of the amended claim: a third party tops up an LP at
ratio 130% and the call succeeds. -/
theorem liquidateLP_risk_band_only_witness :
    isOkE (liquidateLP idEnv liqCtx riskState 2) = true :=
  (liquidateLP_risk_band_only idEnv liqCtx riskState 2 (10 ^ 18) (by rfl)
      (by decide) (by decide) (by decide)).1.mpr ⟨by decide, by decide⟩


/-- Updating one LP's record changes the collateral sum over a
duplicate-free address set containing it by exactly the difference of the
old and new collateral fields. -/
theorem sumColl_setMap (m : Nat → LPInfo) (k : Nat) (v : LPInfo) (vc : Nat)
    (hvc : v.collateralAmount = vc) :
    ∀ addrs : List Nat, k ∈ addrs → addrs.Nodup →
      sumColl (setMap m k v) addrs + (m k).collateralAmount
        = sumColl m addrs + vc
  | [], hk, _ => absurd hk (List.not_mem_nil k)
  | a :: t, hk, hnd => by
    rcases List.mem_cons.mp hk with rfl | hkt
    · have hknot : k ∉ t := (List.nodup_cons.mp hnd).1
      have htmap : (t.map fun x => (setMap m k v x).collateralAmount)
          = t.map fun x => (m x).collateralAmount :=
        List.map_congr_left fun x hx =>
          congrArg LPInfo.collateralAmount
            (setMap_other m k x v (fun he => hknot (he ▸ hx)))
      simp only [sumColl, List.map_cons, List.sum_cons, setMap_same, htmap, hvc]
      omega
    · have hak : a ≠ k := fun he => (List.nodup_cons.mp hnd).1 (he ▸ hkt)
      have ih := sumColl_setMap m k v vc hvc t hkt (List.nodup_cons.mp hnd).2
      simp only [sumColl, List.map_cons, List.sum_cons,
        setMap_other m k a v hak] at ih ⊢
      omega

/-- Claim C10: every collateral-mutating entry point except `liquidateLP`
keeps the recorded per-LP collateral in lockstep with `totalLPCollateral`
(over any duplicate-free address set containing the touched LPs), while a
successful `liquidateLP` that wraps `msg.value` into `w` wstETH credits `w`
twice — once to the target LP and once to the liquidator — against a single
`w` increase of `totalLPCollateral`, leaving `w` of recorded collateral
claims unbacked. -/
theorem liquidateLP_breaks_collateral_sum :
    (∀ env ctx s s' addrs, lpDeposit env ctx s = .ok s' →
        ctx.msgSender ∈ addrs → addrs.Nodup →
        sumColl s'.lpInfo addrs + s.totalLPCollateral
          = sumColl s.lpInfo addrs + s'.totalLPCollateral)
    ∧ (∀ ctx s amt s' addrs, lpDepositWstETH ctx s amt = .ok s' →
        ctx.msgSender ∈ addrs → addrs.Nodup →
        sumColl s'.lpInfo addrs + s.totalLPCollateral
          = sumColl s.lpInfo addrs + s'.totalLPCollateral)
    ∧ (∀ env ctx s amt s' addrs, lpWithdraw env ctx s amt = .ok s' →
        ctx.msgSender ∈ addrs → addrs.Nodup →
        sumColl s'.lpInfo addrs + s.totalLPCollateral
          = sumColl s.lpInfo addrs + s'.totalLPCollateral)
    ∧ (∀ env ctx s amt xaddr lp s' addrs,
        requestBurn env ctx s amt xaddr lp = .ok s' →
        lp ∈ addrs → addrs.Nodup →
        sumColl s'.lpInfo addrs + s.totalLPCollateral
          = sumColl s.lpInfo addrs + s'.totalLPCollateral)
    ∧ (∀ ctx s id tx s', ∀ addrs : List Nat, fulfillBurn ctx s id tx = .ok s' →
        (s.burnRequests id).lp ∈ addrs → addrs.Nodup →
        sumColl s'.lpInfo addrs + s.totalLPCollateral
          = sumColl s.lpInfo addrs + s'.totalLPCollateral)
    ∧ (∀ env ctx s lp s' addrs, liquidateLP env ctx s lp = .ok s' →
        lp ∈ addrs → ctx.msgSender ∈ addrs → addrs.Nodup →
        sumColl s'.lpInfo addrs + s.totalLPCollateral
            + env.wrapEthToWst ctx.msgValue
          = sumColl s.lpInfo addrs + s'.totalLPCollateral
            + 2 * env.wrapEthToWst ctx.msgValue) := by
  refine ⟨?_, ?_, ?_, ?_, ?_, ?_⟩
  · intro env ctx s s' addrs h hmem hnd
    obtain ⟨_, hs⟩ := lpDeposit_ok_elim h
    have hlp : s'.lpInfo = setMap s.lpInfo ctx.msgSender
        { s.lpInfo ctx.msgSender with
          collateralAmount := (s.lpInfo ctx.msgSender).collateralAmount
            + env.wrapEthToWst ctx.msgValue } := by rw [hs]
    have ht : s'.totalLPCollateral
        = s.totalLPCollateral + env.wrapEthToWst ctx.msgValue := by rw [hs]
    have key := sumColl_setMap s.lpInfo ctx.msgSender
      { s.lpInfo ctx.msgSender with
        collateralAmount := (s.lpInfo ctx.msgSender).collateralAmount
          + env.wrapEthToWst ctx.msgValue }
      ((s.lpInfo ctx.msgSender).collateralAmount + env.wrapEthToWst ctx.msgValue)
      (by rfl) addrs hmem hnd
    rw [hlp, ht]
    omega
  · intro ctx s amt s' addrs h hmem hnd
    obtain ⟨_, hs⟩ := lpDepositWstETH_ok_elim h
    have hlp : s'.lpInfo = setMap s.lpInfo ctx.msgSender
        { s.lpInfo ctx.msgSender with
          collateralAmount := (s.lpInfo ctx.msgSender).collateralAmount + amt } := by
      rw [hs]
    have ht : s'.totalLPCollateral = s.totalLPCollateral + amt := by rw [hs]
    have key := sumColl_setMap s.lpInfo ctx.msgSender
      { s.lpInfo ctx.msgSender with
        collateralAmount := (s.lpInfo ctx.msgSender).collateralAmount + amt }
      ((s.lpInfo ctx.msgSender).collateralAmount + amt)
      (by rfl) addrs hmem hnd
    rw [hlp, ht]
    omega
  · intro env ctx s amt s' addrs h hmem hnd
    obtain ⟨h1, h2, hs⟩ := lpWithdraw_ok_elim h
    have hlp : s'.lpInfo = setMap s.lpInfo ctx.msgSender
        { s.lpInfo ctx.msgSender with
          collateralAmount := (s.lpInfo ctx.msgSender).collateralAmount - amt } := by
      rw [hs]
    have ht : s'.totalLPCollateral = s.totalLPCollateral - amt := by rw [hs]
    have key := sumColl_setMap s.lpInfo ctx.msgSender
      { s.lpInfo ctx.msgSender with
        collateralAmount := (s.lpInfo ctx.msgSender).collateralAmount - amt }
      ((s.lpInfo ctx.msgSender).collateralAmount - amt)
      (by rfl) addrs hmem hnd
    rw [hlp, ht]
    omega
  · intro env ctx s amt xaddr lp s' addrs h hmem hnd
    obtain ⟨xv, hxv, hb, hc, hw, hwt, hs⟩ := requestBurn_ok_elim h
    have hlp : s'.lpInfo = setMap s.lpInfo lp
        { s.lpInfo lp with
          collateralAmount := (s.lpInfo lp).collateralAmount
            - env.getWstETHByStETH (xv * SAFE_RATIO / 100)
          backedAmount := (s.lpInfo lp).backedAmount - amt } := by rw [hs]
    have ht : s'.totalLPCollateral = s.totalLPCollateral
        - env.getWstETHByStETH (xv * SAFE_RATIO / 100) := by rw [hs]
    have key := sumColl_setMap s.lpInfo lp
      { s.lpInfo lp with
        collateralAmount := (s.lpInfo lp).collateralAmount
          - env.getWstETHByStETH (xv * SAFE_RATIO / 100)
        backedAmount := (s.lpInfo lp).backedAmount - amt }
      ((s.lpInfo lp).collateralAmount
        - env.getWstETHByStETH (xv * SAFE_RATIO / 100))
      (by rfl) addrs hmem hnd
    rw [hlp, ht]
    omega
  · intro ctx s id tx s' addrs h hmem hnd
    obtain ⟨h1, h2, h3, h4, hs⟩ := fulfillBurn_ok_elim h
    have hlp : s'.lpInfo = setMap s.lpInfo (s.burnRequests id).lp
        { s.lpInfo (s.burnRequests id).lp with
          collateralAmount := (s.lpInfo (s.burnRequests id).lp).collateralAmount
            + (s.burnRequests id).collateralLocked } := by rw [hs]
    have ht : s'.totalLPCollateral
        = s.totalLPCollateral + (s.burnRequests id).collateralLocked := by
      rw [hs]
    have key := sumColl_setMap s.lpInfo (s.burnRequests id).lp
      { s.lpInfo (s.burnRequests id).lp with
        collateralAmount := (s.lpInfo (s.burnRequests id).lp).collateralAmount
          + (s.burnRequests id).collateralLocked }
      ((s.lpInfo (s.burnRequests id).lp).collateralAmount
        + (s.burnRequests id).collateralLocked)
      (by rfl) addrs hmem hnd
    rw [hlp, ht]
    omega
  · intro env ctx s lp s' addrs h hlpmem hsmem hnd
    obtain ⟨_, _, hs⟩ := liquidateLP_ok_elim h
    have hlp : s'.lpInfo = setMap
        (setMap s.lpInfo lp { s.lpInfo lp with
          collateralAmount := (s.lpInfo lp).collateralAmount
            + env.wrapEthToWst ctx.msgValue })
        ctx.msgSender
        { (setMap s.lpInfo lp { s.lpInfo lp with
            collateralAmount := (s.lpInfo lp).collateralAmount
              + env.wrapEthToWst ctx.msgValue }) ctx.msgSender with
          collateralAmount := ((setMap s.lpInfo lp { s.lpInfo lp with
            collateralAmount := (s.lpInfo lp).collateralAmount
              + env.wrapEthToWst ctx.msgValue }) ctx.msgSender).collateralAmount
            + env.wrapEthToWst ctx.msgValue } := by rw [hs]
    have ht : s'.totalLPCollateral
        = s.totalLPCollateral + env.wrapEthToWst ctx.msgValue := by rw [hs]
    have k1 := sumColl_setMap s.lpInfo lp
      { s.lpInfo lp with
        collateralAmount := (s.lpInfo lp).collateralAmount
          + env.wrapEthToWst ctx.msgValue }
      ((s.lpInfo lp).collateralAmount + env.wrapEthToWst ctx.msgValue)
      (by rfl) addrs hlpmem hnd
    have k2 := sumColl_setMap
      (setMap s.lpInfo lp { s.lpInfo lp with
        collateralAmount := (s.lpInfo lp).collateralAmount
          + env.wrapEthToWst ctx.msgValue })
      ctx.msgSender
      { (setMap s.lpInfo lp { s.lpInfo lp with
          collateralAmount := (s.lpInfo lp).collateralAmount
            + env.wrapEthToWst ctx.msgValue }) ctx.msgSender with
        collateralAmount := ((setMap s.lpInfo lp { s.lpInfo lp with
          collateralAmount := (s.lpInfo lp).collateralAmount
            + env.wrapEthToWst ctx.msgValue }) ctx.msgSender).collateralAmount
          + env.wrapEthToWst ctx.msgValue }
      (((setMap s.lpInfo lp { s.lpInfo lp with
          collateralAmount := (s.lpInfo lp).collateralAmount
            + env.wrapEthToWst ctx.msgValue }) ctx.msgSender).collateralAmount
        + env.wrapEthToWst ctx.msgValue)
      (by rfl) addrs hsmem hnd
    rw [hlp, ht]
    omega

/-- The broken-invariant instance: liquidating the 130%-ratio LP with
`10^17` wei credits `10^17` wstETH to the LP and to the liquidator while
`totalLPCollateral` grows by `10^17` only. -/
theorem liquidateLP_breaks_collateral_sum_witness :
    sumColl liqResState.lpInfo [2, 4] + riskState.totalLPCollateral
        + idEnv.wrapEthToWst liqCtx.msgValue
      = sumColl riskState.lpInfo [2, 4] + liqResState.totalLPCollateral
        + 2 * idEnv.wrapEthToWst liqCtx.msgValue :=
  liquidateLP_breaks_collateral_sum.2.2.2.2.2 idEnv liqCtx riskState 2
    liqResState [2, 4] (by rfl) (by decide) (by decide) (by decide)

end HookedMonero
